import Mathlib

/-!
# Verification of the nenuphar / starlark-go VM core

Shallow embedding, in Lean 4, of the parts of the repository that the
frozen claims are about:

* `internal/compile/asm.go` — the textual assembler `Asm` and the
  disassembler `Dasm` (the latter is `panic("unreachable")` in the source).
* the bytecode interpreter `(*Function).CallInternal` together with
  `hasDeferredExecution` (the interpreter source file in the repository).
* the `hashtable` freeze / mutation-check logic (`hashtable.go`).
* `int.go` for the `Int` value kind.

Parts of the repository that the interpreter depends on but whose source
files are not present (the `compile` package's opcode table and
`encodeInsn`, the `Defer.Covers` method, `setArgs`, `Call`, `Binary`) are
modelled from the specification; each such definition carries a doc
comment starting with `Modelled from the spec:`.

Machine integers: Go `uint32` / `int64` values are represented as `Nat` /
`Int`; overflow is irrelevant for every claim settled here (all concrete
arguments are tiny), and where Go parses integers the int64/uint64 range
checks are modelled explicitly.
-/

set_option maxRecDepth 40000

namespace StarVM

/-! ## Opcode table

Modelled from the spec: the opcode enumeration lives in the `compile`
package whose file is not in the source tree; §4.C of the spec lists the
opcodes and states that opcodes with numeric value ≥ `OpcodeArgMin` carry
a single unsigned varint argument (little-endian, 7 bits per byte,
continuation bit).  The concrete numeric values are not observable by any
claim; we fix an enumeration that respects the argless/argful split. -/

def opNOP : Nat := 0
def opDUP : Nat := 1
def opDUP2 : Nat := 2
def opPOP : Nat := 3
def opEXCH : Nat := 4
def opEQL : Nat := 5
def opNEQ : Nat := 6
def opGT : Nat := 7
def opLT : Nat := 8
def opLE : Nat := 9
def opGE : Nat := 10
def opPLUS : Nat := 11
def opMINUS : Nat := 12
def opSTAR : Nat := 13
def opSLASH : Nat := 14
def opSLASHSLASH : Nat := 15
def opPERCENT : Nat := 16
def opAMP : Nat := 17
def opPIPE : Nat := 18
def opCIRCUMFLEX : Nat := 19
def opLTLT : Nat := 20
def opGTGT : Nat := 21
def opIN : Nat := 22
def opUPLUS : Nat := 23
def opUMINUS : Nat := 24
def opTILDE : Nat := 25
def opNOT : Nat := 26
def opINPLACE_ADD : Nat := 27
def opINPLACE_PIPE : Nat := 28
def opNONE : Nat := 29
def opTRUE : Nat := 30
def opFALSE : Nat := 31
def opMANDATORY : Nat := 32
def opRETURN : Nat := 33
def opITERPUSH : Nat := 34
def opITERPOP : Nat := 35
def opMAKEDICT : Nat := 36
def opSETDICT : Nat := 37
def opSETDICTUNIQ : Nat := 38
def opAPPEND : Nat := 39
def opSLICE : Nat := 40
def opINDEX : Nat := 41
def opSETINDEX : Nat := 42
def opRUNDEFER : Nat := 43
def opDEFEREXIT : Nat := 44

def OpcodeArgMin : Nat := 64

def opJMP : Nat := 64
def opCJMP : Nat := 65
def opITERJMP : Nat := 66
def opCONSTANT : Nat := 67
def opMAKETUPLE : Nat := 68
def opMAKELIST : Nat := 69
def opMAKEFUNC : Nat := 70
def opUNPACK : Nat := 71
def opATTR : Nat := 72
def opSETFIELD : Nat := 73
def opLOCAL : Nat := 74
def opSETLOCAL : Nat := 75
def opLOCALCELL : Nat := 76
def opSETLOCALCELL : Nat := 77
def opFREE : Nat := 78
def opFREECELL : Nat := 79
def opGLOBAL : Nat := 80
def opSETGLOBAL : Nat := 81
def opPREDECLARED : Nat := 82
def opUNIVERSAL : Nat := 83
def opLOAD : Nat := 84
def opCALL : Nat := 85
def opCALL_VAR : Nat := 86
def opCALL_KW : Nat := 87
def opCALL_VAR_KW : Nat := 88
def opCATCHJMP : Nat := 89

/-- Modelled from the spec: `reverseLookupOpcode` of the `compile`
package (used by the assembler's `code` section) maps the lower-case
opcode mnemonic to the opcode value. -/
def reverseLookupOpcode (s : String) : Option Nat :=
  if s = "nop" then some opNOP
  else if s = "dup" then some opDUP
  else if s = "dup2" then some opDUP2
  else if s = "pop" then some opPOP
  else if s = "exch" then some opEXCH
  else if s = "eql" then some opEQL
  else if s = "neq" then some opNEQ
  else if s = "gt" then some opGT
  else if s = "lt" then some opLT
  else if s = "le" then some opLE
  else if s = "ge" then some opGE
  else if s = "plus" then some opPLUS
  else if s = "minus" then some opMINUS
  else if s = "star" then some opSTAR
  else if s = "slash" then some opSLASH
  else if s = "slashslash" then some opSLASHSLASH
  else if s = "percent" then some opPERCENT
  else if s = "amp" then some opAMP
  else if s = "pipe" then some opPIPE
  else if s = "circumflex" then some opCIRCUMFLEX
  else if s = "ltlt" then some opLTLT
  else if s = "gtgt" then some opGTGT
  else if s = "in" then some opIN
  else if s = "uplus" then some opUPLUS
  else if s = "uminus" then some opUMINUS
  else if s = "tilde" then some opTILDE
  else if s = "not" then some opNOT
  else if s = "inplace_add" then some opINPLACE_ADD
  else if s = "inplace_pipe" then some opINPLACE_PIPE
  else if s = "none" then some opNONE
  else if s = "true" then some opTRUE
  else if s = "false" then some opFALSE
  else if s = "mandatory" then some opMANDATORY
  else if s = "return" then some opRETURN
  else if s = "iterpush" then some opITERPUSH
  else if s = "iterpop" then some opITERPOP
  else if s = "makedict" then some opMAKEDICT
  else if s = "setdict" then some opSETDICT
  else if s = "setdictuniq" then some opSETDICTUNIQ
  else if s = "append" then some opAPPEND
  else if s = "slice" then some opSLICE
  else if s = "index" then some opINDEX
  else if s = "setindex" then some opSETINDEX
  else if s = "rundefer" then some opRUNDEFER
  else if s = "deferexit" then some opDEFEREXIT
  else if s = "jmp" then some opJMP
  else if s = "cjmp" then some opCJMP
  else if s = "iterjmp" then some opITERJMP
  else if s = "constant" then some opCONSTANT
  else if s = "maketuple" then some opMAKETUPLE
  else if s = "makelist" then some opMAKELIST
  else if s = "makefunc" then some opMAKEFUNC
  else if s = "unpack" then some opUNPACK
  else if s = "attr" then some opATTR
  else if s = "setfield" then some opSETFIELD
  else if s = "local" then some opLOCAL
  else if s = "setlocal" then some opSETLOCAL
  else if s = "localcell" then some opLOCALCELL
  else if s = "setlocalcell" then some opSETLOCALCELL
  else if s = "free" then some opFREE
  else if s = "freecell" then some opFREECELL
  else if s = "global" then some opGLOBAL
  else if s = "setglobal" then some opSETGLOBAL
  else if s = "predeclared" then some opPREDECLARED
  else if s = "universal" then some opUNIVERSAL
  else if s = "load" then some opLOAD
  else if s = "call" then some opCALL
  else if s = "call_var" then some opCALL_VAR
  else if s = "call_kw" then some opCALL_KW
  else if s = "call_var_kw" then some opCALL_VAR_KW
  else if s = "catchjmp" then some opCATCHJMP
  else none

/-- Modelled from the spec: `encodeInsn` of the `compile` package appends
an opcode byte and, when the opcode is ≥ `OpcodeArgMin`, its argument as
an unsigned little-endian base-128 varint with continuation bit. -/
def encodeVarintAux : Nat → Nat → List Nat
  | _, 0 => []
  | arg, fuel + 1 =>
    if arg < 0x80 then [arg]
    else (arg % 0x80 + 0x80) :: encodeVarintAux (arg / 0x80) fuel

def encodeVarint (arg : Nat) : List Nat := encodeVarintAux arg (arg + 1)

def encodeInsn (code : List Nat) (op : Nat) (arg : Nat) : List Nat :=
  if op ≥ OpcodeArgMin then code ++ (op :: encodeVarint arg)
  else code ++ [op]

/-! ## Catch / defer descriptors -/

/-- The `compile.Defer` / `compile.Catch` descriptor: a triple of program
counters (`uint32` in Go, represented as `Nat`). -/
structure DeferD where
  pc0 : Nat
  pc1 : Nat
  startPC : Nat
deriving DecidableEq, Repr

/-- Modelled from the spec: the `Covers` method of `compile.Defer` (its
file is not in the source tree).  Spec glossary: a descriptor `D` covers
pc `p` iff `D.PC0 ≤ p ≤ D.PC1`.  The Go method takes an `int64` (the
interpreter passes `-1` for return/throw destinations), hence `Int`. -/
def DeferD.Covers (d : DeferD) (p : Int) : Bool :=
  (d.pc0 : Int) ≤ p && p ≤ (d.pc1 : Int)

/-! ## Compile-level Program and Funcode (fields used by asm.go and the
interpreter) -/

/-- A constant of the `Constants` pool, as built by the assembler.
A Go `float64` constant is represented by its source token: no claim
depends on float arithmetic, only on whether parsing succeeds. -/
inductive Const where
  | int (i : Int)
  | float (raw : String)
  | bigint (i : Int)
  | str (s : String)
  | bytes (s : String)
deriving DecidableEq, Repr

structure Funcode where
  name : String
  maxStack : Int
  numParams : Int
  numKwonlyParams : Int
  hasVarargs : Bool
  hasKwargs : Bool
  locals : List String := []
  cells : List Nat := []
  freevars : List String := []
  catches : List DeferD := []
  defers : List DeferD := []
  code : List Nat := []
deriving DecidableEq, Repr

structure Program where
  recursion : Bool := false
  loads : List String := []
  names : List String := []
  globals : List String := []
  constants : List Const := []
  toplevel : Option Funcode := none
  functions : List Funcode := []
deriving DecidableEq, Repr

/-! ## Go standard-library helpers used by asm.go

These model `strings.Fields`, `strconv.ParseInt/ParseUint/ParseFloat/
Unquote` and `big.Int.SetString` for base-10 input, precisely enough for
every claim (the claims only observe success/failure and small decimal
values). -/

def isDigitChar (c : Char) : Bool := '0' ≤ c && c ≤ '9'

def digitsVal : List Char → Option Nat
  | [] => none
  | cs => cs.foldl (fun acc c =>
      match acc with
      | none => none
      | some n => if isDigitChar c then some (n * 10 + (c.toNat - '0'.toNat)) else none)
      (some 0)

/-- `strconv.ParseUint(s, 10, 64)`: decimal digits only, no sign. -/
def parseUint64 (s : String) : Option Nat :=
  match digitsVal s.data with
  | none => none
  | some n => if n < 2 ^ 64 then some n else none

/-- `strconv.ParseInt(s, 10, 64)`: optional sign, decimal digits. -/
def parseInt64 (s : String) : Option Int :=
  let core : List Char → Bool → Option Int := fun cs neg =>
    match digitsVal cs with
    | none => none
    | some n =>
      if neg then if (n : Int) ≤ 2 ^ 63 then some (-(n : Int)) else none
      else if (n : Int) < 2 ^ 63 then some (n : Int) else none
  match s.data with
  | '+' :: cs => core cs false
  | '-' :: cs => core cs true
  | cs => core cs false

/-- `big.NewInt(0).SetString(s, 10)`: optional sign, decimal digits,
unbounded. -/
def parseBig (s : String) : Option Int :=
  match s.data with
  | '+' :: cs => (digitsVal cs).map (fun n => (n : Int))
  | '-' :: cs => (digitsVal cs).map (fun n => -(n : Int))
  | cs => (digitsVal cs).map (fun n => (n : Int))

/-- `strconv.ParseFloat(s, 64)` success predicate (the float value itself
is kept as its token, see `Const.float`): decimal mantissa with optional
sign, optional fraction, optional exponent. -/
def validFloat (s : String) : Bool :=
  let afterSign :=
    match s.data with
    | '+' :: cs => cs
    | '-' :: cs => cs
    | cs => cs
  let mant := afterSign.takeWhile isDigitChar
  let rest1 := afterSign.dropWhile isDigitChar
  let (frac, rest2) :=
    match rest1 with
    | '.' :: cs => (cs.takeWhile isDigitChar, cs.dropWhile isDigitChar)
    | cs => ([], cs)
  let mantOK := !mant.isEmpty || !frac.isEmpty
  match rest2 with
  | [] => mantOK
  | e :: cs =>
    if e = 'e' || e = 'E' then
      let cs' := match cs with
        | '+' :: t => t
        | '-' :: t => t
        | t => t
      mantOK && !cs'.isEmpty && cs'.all isDigitChar
    else false

def hexDigitVal (c : Char) : Option Nat :=
  let n := c.toNat
  -- ASCII blocks of `unhex`: digits 48-57, lower a-f 97-102, upper A-F 65-70
  if 48 ≤ n && n ≤ 57 then some (n - 48)
  else if 97 ≤ n && n ≤ 102 then some (n - 97 + 10)
  else if 65 ≤ n && n ≤ 70 then some (n - 65 + 10)
  else none

/-- Body of `strconv.Unquote` after the opening quote: consume until the
closing quote, processing standard escapes; fail on a missing close
quote, stray newline, or invalid escape. -/
def unquoteInnerF : Nat → List Char → Option (List Char)
  | 0, _ => none
  | _, [] => none
  | _ + 1, '"' :: [] => some []
  | _ + 1, '"' :: _ :: _ => none
  | _ + 1, '\n' :: _ => none
  | fuel + 1, '\\' :: rest =>
    (match rest with
     | 'n' :: r => (unquoteInnerF fuel r).map (fun t => '\n' :: t)
     | 't' :: r => (unquoteInnerF fuel r).map (fun t => '\t' :: t)
     | 'r' :: r => (unquoteInnerF fuel r).map (fun t => '\r' :: t)
     | '\\' :: r => (unquoteInnerF fuel r).map (fun t => '\\' :: t)
     | '"' :: r => (unquoteInnerF fuel r).map (fun t => '"' :: t)
     | '\'' :: r => (unquoteInnerF fuel r).map (fun t => '\'' :: t)
     | 'x' :: a :: b :: r =>
       match hexDigitVal a, hexDigitVal b with
       | some ha, some hb => (unquoteInnerF fuel r).map (fun t => Char.ofNat (ha * 16 + hb) :: t)
       | _, _ => none
     | _ => none)
  | fuel + 1, c :: r => (unquoteInnerF fuel r).map (fun t => c :: t)

def unquoteInner (cs : List Char) : Option (List Char) := unquoteInnerF (cs.length + 1) cs

/-- `strconv.Unquote` restricted to double-quoted strings (the only form
the assembly format uses). -/
def unquote (s : String) : Option String :=
  match s.data with
  | '"' :: rest => (unquoteInner rest).map (fun cs => String.mk cs)
  | _ => none

/-- Split a character list at separators chosen by `p` (keeping empty
chunks, like `String.split`). -/
def splitCharsBy (p : Char → Bool) : List Char → List (List Char)
  | [] => [[]]
  | x :: xs =>
    match splitCharsBy p xs with
    | [] => [[]]
    | l :: ls => if p x then [] :: l :: ls else (x :: l) :: ls

/-- `strings.Fields`. -/
def fieldsOf (s : String) : List String :=
  ((splitCharsBy (fun c => c = ' ' || c = '\t' || c = '\r') s.data).filter
    (fun t => t ≠ [])).map String.mk

/-- The line splitting of the `bufio.Scanner`. -/
def splitLines (s : String) : List String :=
  (splitCharsBy (fun c => c = '\n') s.data).map String.mk

/-- Has `pre` as a leading substring (`strings.HasPrefix`). -/
def strStartsWith (s pre : String) : Bool := pre.data.isPrefixOf s.data

def lowerChar (c : Char) : Char :=
  if 'A' ≤ c && c ≤ 'Z' then Char.ofNat (c.toNat + 32) else c

/-- ASCII lower-casing (`strings.ToLower`). -/
def lowerStr (s : String) : String := String.mk (s.data.map lowerChar)

/-- `strings.EqualFold` (ASCII is all the format uses). -/
def eqFold (a b : String) : Bool := lowerStr a = lowerStr b

/-! ## The assembler (translation of asm.go) -/

/-- The `sections` map of asm.go.  Note: the source has no `defers:`
entry. -/
def isSection (s : String) : Bool :=
  s = "program:" || s = "loads:" || s = "names:" || s = "globals:" ||
  s = "constants:" || s = "function:" || s = "locals:" || s = "cells:" ||
  s = "freevars:" || s = "catches:" || s = "code:"

/-- The `asm` struct: remaining input lines stand in for the
`bufio.Scanner`. -/
structure AsmSt where
  lines : List String
  prog : Option Program := none
  fn : Option Funcode := none
  err : Option String := none
deriving Repr

/-- Strip fields from the first `#`-prefixed field on (asm.next). -/
def stripComment : List String → List String
  | [] => []
  | f :: fs => if strStartsWith f "#" then [] else f :: stripComment fs

/-- `asm.next`: fields of the next non-empty, non-comment-only line;
returns no fields once an error is recorded or at end of input. -/
def asmNext (st : AsmSt) : AsmSt × List String :=
  if st.err.isSome then (st, [])
  else go st.lines
where
  go : List String → AsmSt × List String
    | [] => ({ st with lines := [] }, [])
    | l :: rest =>
      match fieldsOf l with
      | [] => go rest
      | f :: fs =>
        if strStartsWith f "#" then go rest
        else ({ st with lines := rest }, stripComment (f :: fs))

/-- `asm.option`. -/
def optionFlag : List String → String → Bool
  | [], _ => false
  | f :: rest, opt =>
    if f = "+" ++ opt then true
    else if f = "-" ++ opt then false
    else optionFlag rest opt

/-- `asm.int`: records an error (and yields 0) on invalid input. -/
def AsmSt.intF (st : AsmSt) (s : String) : AsmSt × Int :=
  match parseInt64 s with
  | some i => (st, i)
  | none => ({ st with err := some ("invalid integer: " ++ s) }, 0)

/-- `asm.uint`: records an error (and yields 0) on invalid input. -/
def AsmSt.uintF (st : AsmSt) (s : String) : AsmSt × Nat :=
  match parseUint64 s with
  | some u => (st, u)
  | none => ({ st with err := some ("invalid unsigned integer: " ++ s) }, 0)

/-- Update the current function (no-op when absent, which never happens
on the guarded paths, mirroring the non-nil `a.fn` pointer). -/
def AsmSt.modFn (st : AsmSt) (f : Funcode → Funcode) : AsmSt :=
  match st.fn with
  | none => st
  | some fn => { st with fn := some (f fn) }

def AsmSt.modProg (st : AsmSt) (f : Program → Program) : AsmSt :=
  match st.prog with
  | none => st
  | some p => { st with prog := some (f p) }

/-- `asm.program`. -/
def asmProgram (st : AsmSt) (fs : List String) : AsmSt :=
  if st.err.isSome then st
  else match fs with
  | [] => { st with err := some "expected program section" }
  | f :: rest =>
    if eqFold f "program:" then
      { st with prog := some { recursion := optionFlag rest "recursion" } }
    else { st with err := some ("expected program section, found " ++ f) }

/-- Shared loop shape of the one-name-per-line sections. -/
def asmNameLoop (push : AsmSt → String → AsmSt) : Nat → AsmSt → AsmSt × List String
  | 0, st => (st, [])
  | fuel + 1, st =>
    let r := asmNext st
    match r.2 with
    | [] => (r.1, [])
    | f :: _ => if isSection f then (r.1, r.2) else asmNameLoop push fuel (push r.1 f)

/-- `asm.loads`. -/
def asmLoads (st : AsmSt) (fs : List String) : AsmSt × List String :=
  if st.err.isSome then (st, fs)
  else match fs with
  | [] => (st, fs)
  | f :: _ =>
    if eqFold f "loads:" then
      asmNameLoop (fun st n => st.modProg (fun p => { p with loads := p.loads ++ [n] }))
        (st.lines.length + 1) st
    else (st, fs)

/-- `asm.names`. -/
def asmNames (st : AsmSt) (fs : List String) : AsmSt × List String :=
  if st.err.isSome then (st, fs)
  else match fs with
  | [] => (st, fs)
  | f :: _ =>
    if eqFold f "names:" then
      asmNameLoop (fun st n => st.modProg (fun p => { p with names := p.names ++ [n] }))
        (st.lines.length + 1) st
    else (st, fs)

/-- `asm.globals`. -/
def asmGlobals (st : AsmSt) (fs : List String) : AsmSt × List String :=
  if st.err.isSome then (st, fs)
  else match fs with
  | [] => (st, fs)
  | f :: _ =>
    if eqFold f "globals:" then
      asmNameLoop (fun st n => st.modProg (fun p => { p with globals := p.globals ++ [n] }))
        (st.lines.length + 1) st
    else (st, fs)

/-- `asm.locals`. -/
def asmLocals (st : AsmSt) (fs : List String) : AsmSt × List String :=
  if st.err.isSome then (st, fs)
  else match fs with
  | [] => (st, fs)
  | f :: _ =>
    if eqFold f "locals:" then
      asmNameLoop (fun st n => st.modFn (fun fn => { fn with locals := fn.locals ++ [n] }))
        (st.lines.length + 1) st
    else (st, fs)

/-- `asm.freevars`. -/
def asmFreevars (st : AsmSt) (fs : List String) : AsmSt × List String :=
  if st.err.isSome then (st, fs)
  else match fs with
  | [] => (st, fs)
  | f :: _ =>
    if eqFold f "freevars:" then
      asmNameLoop (fun st n => st.modFn (fun fn => { fn with freevars := fn.freevars ++ [n] }))
        (st.lines.length + 1) st
    else (st, fs)

/-- Loop body of `asm.cells`: each name must match an existing local. -/
def asmCellsLoop : Nat → AsmSt → AsmSt × List String
  | 0, st => (st, [])
  | fuel + 1, st =>
    let r := asmNext st
    match r.2 with
    | [] => (r.1, [])
    | f :: _ =>
      if isSection f then (r.1, r.2)
      else
        match r.1.fn with
        | none => (r.1, r.2)
        | some fn =>
          match fn.locals.indexOf? f with
          | some i =>
            asmCellsLoop fuel (r.1.modFn (fun fn => { fn with cells := fn.cells ++ [i] }))
          | none =>
            ({ r.1 with
               err := some ("invalid cell: \"" ++ f ++ "\" is not an existing local") }, r.2)

/-- `asm.cells`. -/
def asmCells (st : AsmSt) (fs : List String) : AsmSt × List String :=
  if st.err.isSome then (st, fs)
  else match fs with
  | [] => (st, fs)
  | f :: _ =>
    if eqFold f "cells:" then asmCellsLoop (st.lines.length + 1) st
    else (st, fs)

/-- Loop body of `asm.catches`: three unsigned integers per line, no
address validation (the source has a TODO for it). -/
def asmCatchesLoop : Nat → AsmSt → AsmSt × List String
  | 0, st => (st, [])
  | fuel + 1, st =>
    let r := asmNext st
    match r.2 with
    | [] => (r.1, [])
    | f :: _ =>
      if isSection f then (r.1, r.2)
      else if r.2.length ≠ 3 then
        ({ r.1 with
           err := some ("invalid catch: expected pc0, pc1 and startpc, got " ++
             toString r.2.length ++ " fields") }, r.2)
      else
        let r0 := r.1.uintF (r.2.getD 0 "")
        let r1 := r0.1.uintF (r.2.getD 1 "")
        let r2 := r1.1.uintF (r.2.getD 2 "")
        asmCatchesLoop fuel
          (r2.1.modFn (fun fn =>
            { fn with catches := fn.catches ++
                [{ pc0 := r0.2 % 2 ^ 32, pc1 := r1.2 % 2 ^ 32, startPC := r2.2 % 2 ^ 32 }] }))

/-- `asm.catches`. -/
def asmCatches (st : AsmSt) (fs : List String) : AsmSt × List String :=
  if st.err.isSome then (st, fs)
  else match fs with
  | [] => (st, fs)
  | f :: _ =>
    if eqFold f "catches:" then asmCatchesLoop (st.lines.length + 1) st
    else (st, fs)

/-- Loop body of `asm.constants`. -/
def asmConstantsLoop : Nat → AsmSt → AsmSt × List String
  | 0, st => (st, [])
  | fuel + 1, st =>
    let r := asmNext st
    match r.2 with
    | [] => (r.1, [])
    | f :: _ =>
      if isSection f then (r.1, r.2)
      else if r.2.length ≠ 2 then
        ({ r.1 with
           err := some ("invalid constant: expected type and value, got " ++
             toString r.2.length ++ " fields") }, r.2)
      else
        let v := r.2.getD 1 ""
        if f = "int" then
          -- on parse failure `a.int` records the error (the next asmNext
          -- then yields no fields, exiting the loop) and 0 is appended.
          let r0 := r.1.intF v
          asmConstantsLoop fuel
            (r0.1.modProg (fun p => { p with constants := p.constants ++ [Const.int r0.2] }))
        else if f = "float" then
          if validFloat v then
            asmConstantsLoop fuel
              (r.1.modProg (fun p => { p with constants := p.constants ++ [Const.float v] }))
          else ({ r.1 with err := some ("invalid float: " ++ v) }, r.2)
        else if f = "bigint" then
          match parseBig v with
          | some b =>
            asmConstantsLoop fuel
              (r.1.modProg (fun p => { p with constants := p.constants ++ [Const.bigint b] }))
          | none => ({ r.1 with err := some ("invalid bigint: " ++ v) }, r.2)
        else if f = "string" then
          match unquote v with
          | some s =>
            asmConstantsLoop fuel
              (r.1.modProg (fun p => { p with constants := p.constants ++ [Const.str s] }))
          | none => ({ r.1 with err := some ("invalid string: " ++ v) }, r.2)
        else if f = "bytes" then
          match unquote v with
          | some s =>
            asmConstantsLoop fuel
              (r.1.modProg (fun p => { p with constants := p.constants ++ [Const.bytes s] }))
          | none => ({ r.1 with err := some ("invalid bytes: " ++ v) }, r.2)
        else ({ r.1 with err := some ("invalid constant type: " ++ f) }, r.2)

/-- `asm.constants`. -/
def asmConstants (st : AsmSt) (fs : List String) : AsmSt × List String :=
  if st.err.isSome then (st, fs)
  else match fs with
  | [] => (st, fs)
  | f :: _ =>
    if eqFold f "constants:" then asmConstantsLoop (st.lines.length + 1) st
    else (st, fs)

/-- Loop body of `asm.code`: one opcode per line, argument presence
validated against `OpcodeArgMin`, no jump-target validation. -/
def asmCodeLoop : Nat → AsmSt → AsmSt × List String
  | 0, st => (st, [])
  | fuel + 1, st =>
    let r := asmNext st
    match r.2 with
    | [] => (r.1, [])
    | f :: _ =>
      if isSection f then (r.1, r.2)
      else
        match reverseLookupOpcode (lowerStr f) with
        | none => ({ r.1 with err := some ("invalid opcode: " ++ f) }, r.2)
        | some op =>
          if op ≥ OpcodeArgMin then
            if r.2.length ≠ 2 then
              ({ r.1 with
                 err := some ("expected an argument for opcode " ++ f ++ ", got " ++
                   toString r.2.length ++ " fields") }, r.2)
            else
              let r0 := r.1.uintF (r.2.getD 1 "")
              asmCodeLoop fuel
                (r0.1.modFn (fun fn => { fn with code := encodeInsn fn.code op (r0.2 % 2 ^ 32) }))
          else
            if r.2.length ≠ 1 then
              ({ r.1 with
                 err := some ("expected no argument for opcode " ++ f ++ ", got " ++
                   toString r.2.length ++ " fields") }, r.2)
            else
              asmCodeLoop fuel
                (r.1.modFn (fun fn => { fn with code := encodeInsn fn.code op 0 }))

/-- `asm.code` (the section is mandatory). -/
def asmCode (st : AsmSt) (fs : List String) : AsmSt × List String :=
  if st.err.isSome then (st, fs)
  else match fs with
  | [] => ({ st with err := some "expected code section" }, fs)
  | f :: _ =>
    if eqFold f "code:" then asmCodeLoop (st.lines.length + 1) st
    else ({ st with err := some ("expected code section, found " ++ f) }, fs)

/-- `asm.function`: header, sub-sections, then append to the program
(unconditionally, even when a sub-section recorded an error — the source
has no error check before `a.p.Toplevel = &fn`). -/
def asmFunction (st : AsmSt) (fs : List String) : AsmSt × List String :=
  if st.err.isSome then (st, fs)
  else match fs with
  | [] => (st, fs)
  | f :: _ =>
    if ¬eqFold f "function:" then (st, fs)
    else if fs.length < 5 then
      let st := { st with
        err := some ("invalid function: want at least 5 fields: 'function: NAME <stack> " ++
          "<params> <kwparams> [+varargs +kwargs]', got " ++ toString fs.length ++ " fields") }
      asmNext st
    else
      let ra := st.intF (fs.getD 2 "")
      let rb := ra.1.intF (fs.getD 3 "")
      let rc := rb.1.intF (fs.getD 4 "")
      let fn : Funcode :=
        { name := fs.getD 1 "", maxStack := ra.2, numParams := rb.2, numKwonlyParams := rc.2,
          hasVarargs := optionFlag (fs.drop 5) "varargs",
          hasKwargs := optionFlag (fs.drop 5) "kwargs" }
      let st4 := { rc.1 with fn := some fn }
      let r5 := asmNext st4
      let r6 := asmLocals r5.1 r5.2
      let r7 := asmCells r6.1 r6.2
      let r8 := asmFreevars r7.1 r7.2
      let r9 := asmCatches r8.1 r8.2
      let r10 := asmCode r9.1 r9.2
      let fnFinal := r10.1.fn.getD fn
      let st11 := { r10.1 with fn := none }
      let st12 := st11.modProg (fun p =>
        match p.toplevel with
        | none => { p with toplevel := some fnFinal }
        | some _ => { p with functions := p.functions ++ [fnFinal] })
      (st12, r10.2)

/-- The `function:` loop of `Asm` (exact, case-sensitive comparison as in
the source). -/
def asmFuncLoop : Nat → AsmSt → List String → AsmSt × List String
  | 0, st, fs => (st, fs)
  | fuel + 1, st, fs =>
    if st.err.isNone ∧ fs.head? = some "function:" then
      let r := asmFunction st fs
      asmFuncLoop fuel r.1 r.2
    else (st, fs)

/-- The final checks of `Asm` after the function loop: an unexpected
trailing section, or a missing top-level function. -/
def asmFinish (st : AsmSt) (fs : List String) : AsmSt :=
  if st.err.isNone then
    match fs with
    | f :: _ => { st with err := some ("unexpected section: " ++ f) }
    | [] =>
      match st.prog with
      | some p =>
        if p.toplevel.isNone then { st with err := some "missing top-level function" }
        else st
      | none => st
  else st

/-- `compile.Asm`: loads a compiled program from its assembler textual
format.  Returns the Program pointer (possibly nil, possibly partially
populated) together with the error, exactly as the Go function does. -/
def Asm (input : String) : Option Program × Option String :=
  let st0 : AsmSt := { lines := splitLines input }
  let r1 := asmNext st0
  let st2 := asmProgram r1.1 r1.2
  let r3 := asmNext st2
  let r4 := asmLoads r3.1 r3.2
  let r5 := asmNames r4.1 r4.2
  let r6 := asmGlobals r5.1 r5.2
  let r7 := asmConstants r6.1 r6.2
  let r8 := asmFuncLoop (r7.1.lines.length + 1) r7.1 r7.2
  let st9 := asmFinish r8.1 r8.2
  (st9.prog, st9.err)

/-- A Go panic is modelled as a distinguished failure outcome. -/
inductive GoResult (α : Type) where
  | ok (a : α)
  | panicked (msg : String)
deriving Repr, DecidableEq

/-- `compile.Dasm` exactly as in the source: its entire body is
`panic("unreachable")`. -/
def Dasm (_p : Program) : GoResult String := GoResult.panicked "unreachable"

/-! ## Runtime values and the interpreter (translation of CallInternal)

Heap-allocated mutable objects (`*List`, `*cell`, iterators) are
represented by indices into explicit stores, so that aliasing and
mutation are observable.  A `*Function` value's `funcode` pointer is
represented by an index `fid` into the program's function table
(`0` is the top-level function, `MAKEFUNC i` yields `fid = i + 1`);
pointer equality of funcodes becomes equality of indices. -/

inductive Value where
  | none
  | bool (b : Bool)
  | int (i : Int)
  | float (raw : String)
  | str (s : String)
  | bytes (s : String)
  | tuple (elems : List Value)
  | listRef (id : Nat)
  | cellRef (id : Nat)
  | func (fid : Nat) (defaults : List Value) (freevars : List Value)
  | mandatory

/-- Modelled from the spec: the `Type()` names of the value kinds. -/
def typeName : Value → String
  | .none => "NoneType"
  | .bool _ => "bool"
  | .int _ => "int"
  | .float _ => "float"
  | .str _ => "string"
  | .bytes _ => "bytes"
  | .tuple _ => "tuple"
  | .listRef _ => "list"
  | .cellRef _ => "cell"
  | .func _ _ _ => "function"
  | .mandatory => "mandatory"

/-- Modelled from the spec: truthiness (`Truth()`).  The Go `cell.Truth`
panics ("unreachable"); compiled code never evaluates it. -/
def truth : Value → Bool
  | .none => false
  | .bool b => b
  | .int i => i ≠ 0
  | .str s => s ≠ ""
  | .bytes s => s ≠ ""
  | .mandatory => false
  | .cellRef _ => false
  | _ => true

/-- A `*List` object: `frozen`/`itercount` guard mutation (list.go is
not in the source tree; fields and guard mirror the in-tree hashtable). -/
structure ListObj where
  frozen : Bool := false
  itercount : Nat := 0
  elems : List Value := []

inductive IterKind where
  | push      -- acquired by ITERPUSH (lives on the iterator stack)
  | unpack    -- acquired by the UNPACK opcode body
  | varargs   -- acquired by the CALL family for a *args sequence
deriving DecidableEq, Repr

/-- An iterator instance, instrumented with the number of `Done()` calls
it has received. -/
structure IterSt where
  remaining : List Value
  src : Option Nat := none   -- list id whose itercount was bumped
  doneCount : Nat := 0
  kind : IterKind

/-- The runtime program: function table (index 0 = top level), constant
pool already converted to values, and the global/name tables. -/
structure IProg where
  recursion : Bool := false
  funcs : List Funcode
  constants : List Value := []
  globalNames : List String := []

/-- Mutable interpreter state shared across frames: module globals, the
heaps for lists / cells / iterators, and the thread fields read by the
loop (`Steps`, `maxSteps`, `OnMaxSteps` presence, `cancelReason`). -/
structure GSt where
  globals : List (Option Value) := []
  lists : List ListObj := []
  cells : List (Option Value) := []
  iters : List IterSt := []
  steps : Nat := 0
  maxSteps : Nat := 0
  hasOnMaxSteps : Bool := false
  cancelReason : Option String := none

/-- `Thread.Cancel`: idempotent, first reason wins (spec §6). -/
def cancelThread (g : GSt) (reason : String) : GSt :=
  if g.cancelReason.isNone then { g with cancelReason := some reason } else g

/-- `Iterate(x)`: allocate an iterator over a tuple or list (`none` for
non-iterable values).  A list iterator bumps the list's `itercount`
unless the list is frozen, as the in-tree hashtable iterator does. -/
def iterate (g : GSt) (k : IterKind) (x : Value) : Option (GSt × Nat) :=
  match x with
  | .tuple vs =>
    some ({ g with iters := g.iters ++ [{ remaining := vs, kind := k }] }, g.iters.length)
  | .listRef id =>
    match g.lists.get? id with
    | some lo =>
      let g :=
        if lo.frozen then g
        else { g with lists := g.lists.set id { lo with itercount := lo.itercount + 1 } }
      some ({ g with iters := g.iters ++ [{ remaining := lo.elems, src := some id, kind := k }] },
        g.iters.length)
    | none => none
  | _ => none

/-- `iter.Next(&v)`. -/
def iterNext (g : GSt) (id : Nat) : GSt × Option Value :=
  match g.iters.get? id with
  | none => (g, none)
  | some it =>
    match it.remaining with
    | [] => (g, none)
    | v :: rest => ({ g with iters := g.iters.set id { it with remaining := rest } }, some v)

/-- `iter.Done()`: instrumented; also releases the source list's
itercount (unless frozen). -/
def iterDone (g : GSt) (id : Nat) : GSt :=
  match g.iters.get? id with
  | none => g
  | some it =>
    let g := { g with iters := g.iters.set id { it with doneCount := it.doneCount + 1 } }
    match it.src with
    | none => g
    | some lid =>
      match g.lists.get? lid with
      | some lo =>
        if lo.frozen then g
        else { g with lists := g.lists.set lid { lo with itercount := lo.itercount - 1 } }
      | none => g

/-- `Len(x)` as used in the too-many-values message: length for
sequences, -1 otherwise. -/
def lenModel (g : GSt) (x : Value) : Int :=
  match x with
  | .tuple vs => (vs.length : Int)
  | .listRef id =>
    match g.lists.get? id with
    | some lo => (lo.elems.length : Int)
    | none => -1
  | _ => -1

def isIterableValue (g : GSt) (x : Value) : Bool :=
  match x with
  | .tuple _ => true
  | .listRef id => (g.lists.get? id).isSome
  | _ => false

def iterableElems (g : GSt) (x : Value) : List Value :=
  match x with
  | .tuple vs => vs
  | .listRef id =>
    match g.lists.get? id with
    | some lo => lo.elems
    | none => []
  | _ => []

/-- Modelled from the spec: `List.checkMutable` (list.go is not in the
source tree; the message shape mirrors the in-tree
`hashtable.checkMutable`): mutation fails on a frozen list and on a list
with active iterators. -/
def listCheckMutable (lo : ListObj) (verb : String) : Option String :=
  if lo.frozen then some ("cannot " ++ verb ++ " frozen list")
  else if lo.itercount > 0 then some ("cannot " ++ verb ++ " list during iteration")
  else none

/-- Modelled from the spec: `Binary` for the PLUS token (`Binary` lives
in a file not in the source tree).  `1 + "a"` must fail with
`unknown binary op: int + string` (spec scenario S3). -/
def binaryPlus (x y : Value) : Except String Value :=
  match x, y with
  | .int a, .int b => .ok (.int (a + b))
  | .str a, .str b => .ok (.str (a ++ b))
  | _, _ => .error ("unknown binary op: " ++ typeName x ++ " + " ++ typeName y)

/-- The downward catch-table scan after the dispatch loop: the handler is
the covering descriptor of greatest index (`for i := len-1; i >= 0; i--`,
first hit wins). -/
def findCatch : List DeferD → Nat → Option DeferD
  | [], _ => none
  | c :: rest, pcv =>
    match findCatch rest pcv with
    | some h => some h
    | none => if c.Covers (pcv : Int) then some c else none

/-- `hasDeferredExecution` (translated verbatim from the interpreter
file): the greatest eligible `StartPC` among defers and catches covering
`fromPC` but not `toPC`; `none` models the `false` return. -/
def hasDeferredExecution (fromPC toPC : Int) (defrs catchs : List DeferD) : Option Nat :=
  let step := fun (target : Int) (d : DeferD) =>
    if d.Covers fromPC && !d.Covers toPC then
      if (d.startPC : Int) > target then (d.startPC : Int) else target
    else target
  let target := catchs.foldl step (defrs.foldl step (-1))
  if target ≥ 0 then some target.toNat else none

/-- Modelled from the spec: `setArgs` (its file is not in the source
tree) for the forms every claim exercises: purely positional parameters,
no varargs/kwargs, no defaults; excess/missing arguments fail. -/
def setArgs (f : Funcode) (args : List Value) (kwargs : List (Value × Value)) :
    Except String (List (Option Value)) :=
  if ¬kwargs.isEmpty then
    .error ("function " ++ f.name ++ " does not accept keyword arguments")
  else if (args.length : Int) ≠ f.numParams then
    .error ("function " ++ f.name ++ " accepts " ++ toString f.numParams ++
      " positional arguments (" ++ toString args.length ++ " given)")
  else
    .ok ((args.map some) ++ List.replicate (f.locals.length - args.length) none)

/-- Spill the locals listed in `f.Cells` to freshly allocated cells
(`locals[index] = &cell{locals[index]}`). -/
def spillCells (g : GSt) (locals : List (Option Value)) :
    List Nat → Option (GSt × List (Option Value))
  | [] => some (g, locals)
  | i :: rest =>
    if h : i < locals.length then
      let id := g.cells.length
      spillCells { g with cells := g.cells ++ [locals.get ⟨i, h⟩] }
        (locals.set i (some (.cellRef id))) rest
    else none

/-- Decode the unsigned little-endian base-128 argument at `pc`
(`for s := 0; ; s += 7 { ... }`); `none` models the index panic on
running off the end of `Code`. -/
def decodeArg (code : List Nat) : Nat → Nat → Nat → Nat → Option (Nat × Nat)
  | _, _, _, 0 => none
  | pc, s, acc, fuel + 1 =>
    match code.get? pc with
    | none => none
    | some b =>
      let acc := acc + (b % 0x80) * 2 ^ s
      if b < 0x80 then some (acc % 2 ^ 32, pc + 1)
      else decodeArg code (pc + 1) (s + 7) acc fuel

/-- Outcome of the dispatch loop / of a call. -/
inductive Outcome where
  | ret (v : Value)        -- loop broke via RETURN
  | err (e : String)       -- inFlightErr, no covering catch
  | panicked (m : String)  -- a Go runtime panic (index/type assertion)
  | unmodelled             -- opcode outside the modelled subset
  | outOfFuel

/-- Per-frame loop state of `CallInternal`: the operand stack is a list
whose head is the top (`stack[sp-1]`). -/
structure LSt where
  g : GSt
  stackFids : List Nat          -- thread.stack as funcode ids, own frame last
  f : Funcode
  freevars : List Value
  locals : List (Option Value)
  stack : List Value
  iterIds : List Nat            -- iterator stack, last = innermost
  pc : Nat
  frPc : Nat
  runDefer : Bool
  caughtErr : Option String

/-- `break loop` with `inFlightErr` set: the post-loop catch lookup.  The
covering catch of greatest index receives the error (`caughtErr`), the
error is cleared, and dispatch resumes at its `StartPC` (`goto loop`);
with no covering catch the error is returned to the caller.  Note that
the source inspects only the pc, never the error itself. -/
def errXfer (s : LSt) (e : String) : LSt ⊕ (GSt × List Nat × Outcome) :=
  match findCatch s.f.catches s.frPc with
  | some c => Sum.inl { s with caughtErr := some e, pc := c.startPC }
  | none => Sum.inr (s.g, s.iterIds, Outcome.err e)

/-- Type of one unfolding of the dispatch loop. -/
def LoopFn : Type := LSt → GSt × List Nat × Outcome

/-- Type of one unfolding of `CallInternal`. -/
def CallT : Type :=
  GSt → List Nat → Nat → List Value → List Value → List (Value × Value) → GSt × Outcome

/-- The loop prologue: step accounting, budget check, possible
self-cancellation. -/
def stepThread (g : GSt) : GSt :=
  let g0 := { g with steps := g.steps + 1 }
  if g0.steps ≥ g0.maxSteps then
    if g0.hasOnMaxSteps then g0 else cancelThread g0 "too many steps"
  else g0

/-- The dispatch loop, one iteration per fuel unit (a catch-handler
transfer also consumes a unit). -/
def runLoopBody (pr : IProg) (recLoop : LoopFn) (recCall : CallT) (s : LSt) :
    GSt × List Nat × Outcome :=
    let g0 := stepThread s.g
    match g0.cancelReason with
    | some reason =>
      match errXfer { s with g := g0 }
          ("Starlark computation cancelled: " ++ reason) with
      | .inl s2 => recLoop s2
      | .inr r => r
    | none =>
      let s := { s with g := g0, frPc := s.pc }
      match s.f.code.get? s.pc with
      | none => (s.g, s.iterIds, .panicked "pc out of range")
      | some op =>
        match
          (if op ≥ OpcodeArgMin then decodeArg s.f.code (s.pc + 1) 0 0 (s.f.code.length + 1)
           else some (0, s.pc + 1)) with
        | none => (s.g, s.iterIds, .panicked "pc out of range")
        | some (arg, pc2) =>
          -- the opcode switch
          let g := s.g
          if op = opNOP then recLoop { s with pc := pc2 }
          else if op = opDUP then
            match s.stack with
            | v :: rest => recLoop { s with stack := v :: v :: rest, pc := pc2 }
            | _ => (g, s.iterIds, .panicked "stack underflow")
          else if op = opDUP2 then
            match s.stack with
            | a :: b :: rest =>
              recLoop { s with stack := a :: b :: a :: b :: rest, pc := pc2 }
            | _ => (g, s.iterIds, .panicked "stack underflow")
          else if op = opPOP then
            match s.stack with
            | _ :: rest => recLoop { s with stack := rest, pc := pc2 }
            | _ => (g, s.iterIds, .panicked "stack underflow")
          else if op = opEXCH then
            match s.stack with
            | a :: b :: rest => recLoop { s with stack := b :: a :: rest, pc := pc2 }
            | _ => (g, s.iterIds, .panicked "stack underflow")
          else if op = opPLUS then
            match s.stack with
            | y :: x :: rest =>
              (match binaryPlus x y with
               | .ok z => recLoop { s with stack := z :: rest, pc := pc2 }
               | .error e =>
                 match errXfer { s with stack := rest, pc := pc2 } e with
                 | .inl s2 => recLoop s2
                 | .inr r => r)
            | _ => (g, s.iterIds, .panicked "stack underflow")
          else if op = opINPLACE_ADD then
            match s.stack with
            | y :: x :: rest =>
              (match x with
               | .listRef id =>
                 (match g.lists.get? id with
                  | none => (g, s.iterIds, .panicked "nil list")
                  | some lo =>
                    if isIterableValue g y then
                      match listCheckMutable lo "apply += to" with
                      | some e =>
                        (match errXfer { s with stack := rest, pc := pc2 } e with
                         | .inl s2 => recLoop s2
                         | .inr r => r)
                      | none =>
                        let lo2 := { lo with elems := lo.elems ++ iterableElems g y }
                        let g := { g with lists := g.lists.set id lo2 }
                        recLoop { s with g := g, stack := x :: rest, pc := pc2 }
                    else
                      match binaryPlus x y with
                      | .ok z => recLoop { s with stack := z :: rest, pc := pc2 }
                      | .error e =>
                        match errXfer { s with stack := rest, pc := pc2 } e with
                        | .inl s2 => recLoop s2
                        | .inr r => r)
               | _ =>
                 match binaryPlus x y with
                 | .ok z => recLoop { s with stack := z :: rest, pc := pc2 }
                 | .error e =>
                   match errXfer { s with stack := rest, pc := pc2 } e with
                   | .inl s2 => recLoop s2
                   | .inr r => r)
            | _ => (g, s.iterIds, .panicked "stack underflow")
          else if op = opNONE then
            recLoop { s with stack := Value.none :: s.stack, pc := pc2 }
          else if op = opTRUE then
            recLoop { s with stack := Value.bool true :: s.stack, pc := pc2 }
          else if op = opFALSE then
            recLoop { s with stack := Value.bool false :: s.stack, pc := pc2 }
          else if op = opMANDATORY then
            recLoop { s with stack := Value.mandatory :: s.stack, pc := pc2 }
          else if op = opNOT then
            match s.stack with
            | v :: rest =>
              recLoop { s with stack := Value.bool (!truth v) :: rest, pc := pc2 }
            | _ => (g, s.iterIds, .panicked "stack underflow")
          else if op = opJMP then
            -- runDefer: TODO stub in the source — cleared, no defer runs
            recLoop { s with runDefer := false, pc := arg }
          else if op = opCJMP then
            match s.stack with
            | c :: rest =>
              if truth c then
                recLoop { s with runDefer := false, stack := rest, pc := arg }
              else recLoop { s with stack := rest, pc := pc2 }
            | _ => (g, s.iterIds, .panicked "stack underflow")
          else if op = opRETURN then
            match s.stack with
            | v :: _ =>
              -- runDefer: TODO stub in the source — cleared, no defer runs
              (s.g, s.iterIds, .ret v)
            | _ => (g, s.iterIds, .panicked "stack underflow")
          else if op = opRUNDEFER then
            recLoop { s with runDefer := true, pc := pc2 }
          else if op = opDEFEREXIT then
            -- TODO stub in the source: no deferred block bookkeeping at all
            recLoop { s with pc := pc2 }
          else if op = opCATCHJMP then
            -- TODO stub in the source: no jump, no caughtErr clearing
            recLoop { s with pc := pc2 }
          else if op = opCONSTANT then
            match pr.constants.get? arg with
            | some v => recLoop { s with stack := v :: s.stack, pc := pc2 }
            | none => (g, s.iterIds, .panicked "constant index out of range")
          else if op = opMAKETUPLE then
            if arg ≤ s.stack.length then
              let s2 := { s with
                stack := Value.tuple (s.stack.take arg).reverse :: s.stack.drop arg,
                pc := pc2 }
              recLoop s2
            else (g, s.iterIds, .panicked "stack underflow")
          else if op = opMAKELIST then
            if arg ≤ s.stack.length then
              let id := g.lists.length
              let g := { g with lists := g.lists ++ [{ elems := (s.stack.take arg).reverse }] }
              let s2 := { s with
                g := g, stack := Value.listRef id :: s.stack.drop arg, pc := pc2 }
              recLoop s2
            else (g, s.iterIds, .panicked "stack underflow")
          else if op = opMAKEFUNC then
            match pr.funcs.get? (arg + 1) with
            | none => (g, s.iterIds, .panicked "function index out of range")
            | some funcode =>
              match s.stack with
              | .tuple t :: rest =>
                let nfv := funcode.freevars.length
                if nfv ≤ t.length then
                  let fv := Value.func (arg + 1) (t.take (t.length - nfv))
                    (t.drop (t.length - nfv))
                  recLoop { s with stack := fv :: rest, pc := pc2 }
                else (g, s.iterIds, .panicked "slice bounds out of range")
              | _ => (g, s.iterIds, .panicked "type assertion")
          else if op = opAPPEND then
            match s.stack with
            | elem :: lv :: rest =>
              (match lv with
               | .listRef id =>
                 (match g.lists.get? id with
                  | none => (g, s.iterIds, .panicked "nil list")
                  | some lo =>
                    -- note: no frozen/itercount check in the APPEND body
                    let lo2 := { lo with elems := lo.elems ++ [elem] }
                    let g := { g with lists := g.lists.set id lo2 }
                    recLoop { s with g := g, stack := rest, pc := pc2 })
               | _ => (g, s.iterIds, .panicked "type assertion"))
            | _ => (g, s.iterIds, .panicked "stack underflow")
          else if op = opLOCAL then
            match s.locals.get? arg with
            | none => (g, s.iterIds, .panicked "local index out of range")
            | some Option.none =>
              (match errXfer { s with pc := pc2 }
                  ("local variable " ++ (s.f.locals.getD arg "") ++
                    " referenced before assignment") with
               | .inl s2 => recLoop s2
               | .inr r => r)
            | some (some v) => recLoop { s with stack := v :: s.stack, pc := pc2 }
          else if op = opSETLOCAL then
            match s.stack with
            | v :: rest =>
              if arg < s.locals.length then
                let s2 := { s with
                  locals := s.locals.set arg (some v), stack := rest, pc := pc2 }
                recLoop s2
              else (g, s.iterIds, .panicked "local index out of range")
            | _ => (g, s.iterIds, .panicked "stack underflow")
          else if op = opLOCALCELL then
            match s.locals.get? arg with
            | none => (g, s.iterIds, .panicked "local index out of range")
            | some Option.none => (g, s.iterIds, .panicked "type assertion")
            | some (some lv) =>
              match lv with
              | .cellRef id =>
                (match g.cells.get? id with
                 | none => (g, s.iterIds, .panicked "nil cell")
                 | some Option.none =>
                   (match errXfer { s with pc := pc2 }
                       ("local variable " ++ (s.f.locals.getD arg "") ++
                         " referenced before assignment") with
                    | .inl s2 => recLoop s2
                    | .inr r => r)
                 | some (some v) =>
                   recLoop { s with stack := v :: s.stack, pc := pc2 })
              | _ => (g, s.iterIds, .panicked "type assertion")
          else if op = opSETLOCALCELL then
            match s.stack with
            | v :: rest =>
              (match s.locals.get? arg with
               | none => (g, s.iterIds, .panicked "local index out of range")
               | some Option.none => (g, s.iterIds, .panicked "type assertion")
               | some (some lv) =>
                 match lv with
                 | .cellRef id =>
                   if id < g.cells.length then
                     -- note: no frozen check; the cell is overwritten
                     -- unconditionally
                     let s2 := { s with
                       g := { g with cells := g.cells.set id (some v) },
                       stack := rest, pc := pc2 }
                     recLoop s2
                   else (g, s.iterIds, .panicked "nil cell")
                 | _ => (g, s.iterIds, .panicked "type assertion"))
            | _ => (g, s.iterIds, .panicked "stack underflow")
          else if op = opFREE then
            match s.freevars.get? arg with
            | some v => recLoop { s with stack := v :: s.stack, pc := pc2 }
            | none => (g, s.iterIds, .panicked "freevar index out of range")
          else if op = opFREECELL then
            match s.freevars.get? arg with
            | none => (g, s.iterIds, .panicked "freevar index out of range")
            | some fv =>
              match fv with
              | .cellRef id =>
                (match g.cells.get? id with
                 | none => (g, s.iterIds, .panicked "nil cell")
                 | some Option.none =>
                   (match errXfer { s with pc := pc2 }
                       ("local variable " ++ (s.f.freevars.getD arg "") ++
                         " referenced before assignment") with
                    | .inl s2 => recLoop s2
                    | .inr r => r)
                 | some (some v) =>
                   recLoop { s with stack := v :: s.stack, pc := pc2 })
              | _ => (g, s.iterIds, .panicked "type assertion")
          else if op = opGLOBAL then
            match g.globals.get? arg with
            | none => (g, s.iterIds, .panicked "global index out of range")
            | some Option.none =>
              (match errXfer { s with pc := pc2 }
                  ("global variable " ++ (pr.globalNames.getD arg "") ++
                    " referenced before assignment") with
               | .inl s2 => recLoop s2
               | .inr r => r)
            | some (some v) => recLoop { s with stack := v :: s.stack, pc := pc2 }
          else if op = opSETGLOBAL then
            match s.stack with
            | v :: rest =>
              if arg < g.globals.length then
                let s2 := { s with
                  g := { g with globals := g.globals.set arg (some v) },
                  stack := rest, pc := pc2 }
                recLoop s2
              else (g, s.iterIds, .panicked "global index out of range")
            | _ => (g, s.iterIds, .panicked "stack underflow")
          else if op = opITERPUSH then
            match s.stack with
            | x :: rest =>
              (match iterate g .push x with
               | none =>
                 (match errXfer { s with stack := rest, pc := pc2 }
                     (typeName x ++ " value is not iterable") with
                  | .inl s2 => recLoop s2
                  | .inr r => r)
               | some (g, id) =>
                 let s2 := { s with
                   g := g, stack := rest, iterIds := s.iterIds ++ [id], pc := pc2 }
                 recLoop s2)
            | _ => (g, s.iterIds, .panicked "stack underflow")
          else if op = opITERJMP then
            match s.iterIds.getLast? with
            | none => (g, s.iterIds, .panicked "iterator stack empty")
            | some id =>
              match iterNext g id with
              | (g, some v) => recLoop { s with g := g, stack := v :: s.stack, pc := pc2 }
              | (g, none) =>
                -- runDefer: TODO stub in the source — cleared, no defer runs
                recLoop { s with g := g, runDefer := false, pc := arg }
          else if op = opITERPOP then
            match s.iterIds.getLast? with
            | none => (g, s.iterIds, .panicked "iterator stack empty")
            | some id =>
              let s2 := { s with
                g := iterDone g id, iterIds := s.iterIds.dropLast, pc := pc2 }
              recLoop s2
          else if op = opUNPACK then
            match s.stack with
            | iterable :: rest =>
              (match iterate g .unpack iterable with
               | none =>
                 (match errXfer { s with stack := rest, pc := pc2 }
                     ("got " ++ typeName iterable ++ " in sequence assignment") with
                  | .inl s2 => recLoop s2
                  | .inr r => r)
               | some (g, id) =>
                 let r := iterableElems s.g iterable
                 let k := min arg r.length
                 -- unfilled slots keep stale stack memory in Go; they are
                 -- only observable on the error exits below
                 let newStack := r.take k ++ List.replicate (arg - k) Value.none ++ rest
                 if r.length > arg then
                   -- the extra `iter.Next(&dummy)` succeeded: error, and
                   -- the iterator Done() is skipped on this path
                   let it0 := g.iters.getD id { remaining := [], kind := .unpack }
                   let g := { g with
                     iters := g.iters.set id { it0 with remaining := r.drop (k + 1) } }
                   match errXfer { s with g := g, stack := newStack, pc := pc2 }
                       ("too many values to unpack (got " ++
                         toString (lenModel s.g iterable) ++ ", want " ++
                         toString arg ++ ")") with
                   | .inl s2 => recLoop s2
                   | .inr r => r
                 else
                   let it0 := g.iters.getD id { remaining := [], kind := .unpack }
                   let g := { g with iters := g.iters.set id { it0 with remaining := [] } }
                   let g := iterDone g id
                   if k < arg then
                     match errXfer { s with g := g, stack := newStack, pc := pc2 }
                         ("too few values to unpack (got " ++ toString k ++
                           ", want " ++ toString arg ++ ")") with
                     | .inl s2 => recLoop s2
                     | .inr r => r
                   else recLoop { s with g := g, stack := newStack, pc := pc2 })
            | _ => (g, s.iterIds, .panicked "stack underflow")
          else if op = opCALL ∨ op = opCALL_VAR then
            -- kwargs is nil for CALL and CALL_VAR
            let popArgs : Option (Option Value × List Value) :=
              if op = opCALL_VAR then
                match s.stack with
                | a :: rest => some (some a, rest)
                | [] => none
              else some (none, s.stack)
            match popArgs with
            | none => (g, s.iterIds, .panicked "stack underflow")
            | some (argsVal, stack1) =>
              let nkv := arg % 256
              let npos := arg / 256
              if 2 * nkv + npos + 1 > stack1.length then
                (g, s.iterIds, .panicked "stack underflow")
              else
                -- named-arg pairs, bottom-to-top order
                let kvflat := (stack1.take (2 * nkv)).reverse
                let kvpairs := (List.range nkv).map (fun i =>
                  (kvflat.getD (2 * i) Value.none, kvflat.getD (2 * i + 1) Value.none))
                let stack2 := stack1.drop (2 * nkv)
                let positional0 := (stack2.take npos).reverse
                let stack3 := stack2.drop npos
                -- (the positional-copy decision is pure aliasing
                -- bookkeeping over identical values; preparePositional
                -- below renders it faithfully)
                let withStar : Except (GSt × String) (GSt × List Value) :=
                  match argsVal with
                  | Option.none => .ok (g, positional0)
                  | some av =>
                    match iterate g .varargs av with
                    | Option.none =>
                      .error (g, "argument after * must be iterable, not " ++ typeName av)
                    | some (g, idIter) =>
                      let elems := iterableElems s.g av
                      let it0 := g.iters.getD idIter { remaining := [], kind := .varargs }
                      let g := { g with
                        iters := g.iters.set idIter { it0 with remaining := [] } }
                      .ok (iterDone g idIter, positional0 ++ elems)
                match withStar with
                | .error (g, e) =>
                  (match errXfer { s with g := g, stack := stack3, pc := pc2 } e with
                   | .inl s2 => recLoop s2
                   | .inr r => r)
                | .ok (g, positional) =>
                  match stack3 with
                  | [] => (g, s.iterIds, .panicked "stack underflow")
                  | callee :: _ =>
                    -- `Call` (modelled from the spec): push a frame for
                    -- the callee and run CallInternal; non-functions fail
                    let called : GSt × Outcome :=
                      match callee with
                      | .func cfid _ cfreevars =>
                        recCall g (s.stackFids ++ [cfid]) cfid cfreevars
                          positional kvpairs
                      | _ =>
                        (g, .err ("invalid call of non-function (" ++
                          typeName callee ++ ")"))
                    match called with
                    | (g, .ret z) =>
                      recLoop { s with g := g, stack := z :: stack3.tail, pc := pc2 }
                    | (g, .err e) =>
                      (match errXfer { s with g := g, stack := stack3, pc := pc2 } e with
                       | .inl s2 => recLoop s2
                       | .inr r => r)
                    | (g, .panicked m) => (g, s.iterIds, .panicked m)
                    | (g, .unmodelled) => (g, s.iterIds, .unmodelled)
                    | (g, .outOfFuel) => (g, s.iterIds, .outOfFuel)
          else if (45 ≤ op ∧ op < OpcodeArgMin) ∨ op > opCATCHJMP then
            -- bytes that are no opcode at all: the Go default case
            (match errXfer { s with pc := pc2 }
                ("unimplemented: opcode " ++ toString op) with
             | .inl s2 => recLoop s2
             | .inr r => r)
          else (g, s.iterIds, .unmodelled)

/-- `(*Function).CallInternal`: recursion check, locals/stack setup,
argument binding, cell spilling, dispatch loop, and the deferred
iterator cleanup on every exit path. -/
def callFnBody (pr : IProg) (recLoop : LoopFn) (g : GSt) (stackFids : List Nat)
    (fid : Nat) (freevars : List Value) (args : List Value)
    (kwargs : List (Value × Value)) : GSt × Outcome :=
    match pr.funcs.get? fid with
    | none => (g, .panicked "nil funcode")
    | some f =>
      -- detect recursion: same funcode in any frame below the current one
      if ¬pr.recursion ∧ fid ∈ stackFids.dropLast then
        (g, .err ("function " ++ f.name ++ " called recursively"))
      else if f.hasVarargs ∨ f.hasKwargs ∨ f.numKwonlyParams ≠ 0 then
        -- parameter forms beyond the claims' reach are not conflated
        -- with real errors
        (g, .unmodelled)
      else
        match setArgs f args kwargs with
        | .error e => (g, .err e)   -- thread.evalError wrapper elided
        | .ok locals0 =>
          match spillCells g locals0 f.cells with
          | none => (g, .panicked "cell index out of range")
          | some (g, locals) =>
            let s : LSt :=
              { g := g, stackFids := stackFids, f := f, freevars := freevars,
                locals := locals, stack := [], iterIds := [], pc := 0, frPc := 0,
                runDefer := false, caughtErr := none }
            let r := recLoop s
            -- deferred cleanup: Done() the remaining iterator stack on
            -- every exit path (also when a panic is propagating)
            (r.2.1.foldl (fun g id => iterDone g id) r.1, r.2.2)

/-- Tie the recursive knot with an explicit fuel: `execN pr n` is the
pair (dispatch loop, CallInternal) allowed `n` loop iterations /
call-depth steps in total. -/
def execN (pr : IProg) (n : Nat) : LoopFn × CallT :=
  Nat.rec (motive := fun _ => LoopFn × CallT)
    (fun s => (s.g, s.iterIds, Outcome.outOfFuel),
     fun g _ _ _ _ _ => (g, Outcome.outOfFuel))
    (fun _ ih => (runLoopBody pr ih.1 ih.2, callFnBody pr ih.1))
    n

/-- The dispatch loop with fuel. -/
def runLoop (pr : IProg) (fuel : Nat) : LSt → GSt × List Nat × Outcome :=
  (execN pr fuel).1

/-- `(*Function).CallInternal` with fuel. -/
def callFn (pr : IProg) (fuel : Nat) (g : GSt) (stackFids : List Nat) (fid : Nat)
    (freevars : List Value) (args : List Value) (kwargs : List (Value × Value)) :
    GSt × Outcome :=
  (execN pr fuel).2 g stackFids fid freevars args kwargs

/-! ## The positional-argument preparation of the CALL family

A faithful rendering of the aliasing decision in the CALL case of
`CallInternal`:

```
if npos := int(arg >> 8); npos > 0 {
    positional = stack[sp-npos : sp]
    sp -= npos
    if _, ok := stack[sp-1].(*Function); !ok || args != nil {
        positional = append(Tuple(nil), positional...)
    }
}
```

`stack[sp-npos:sp]` is a sub-slice aliasing the caller's operand stack;
`append(Tuple(nil), ...)` is a fresh array with the same values. -/

inductive PosArgs where
  | empty                        -- npos = 0: the nil Tuple
  | aliased (vals : List Value)  -- sub-slice of the caller's operand stack
  | fresh (vals : List Value)    -- freshly allocated copy

/-- `calleeIsFunction` is the `stack[sp-1].(*Function)` assertion after
the pops; `hasStarArgs` is `args != nil` (a `*args` sequence was
present); `stackTop` is the operand stack with the top first. -/
def preparePositional (calleeIsFunction : Bool) (hasStarArgs : Bool) (npos : Nat)
    (stackTop : List Value) : PosArgs :=
  if npos > 0 then
    let vals := (stackTop.take npos).reverse
    if ¬calleeIsFunction ∨ hasStarArgs then .fresh vals else .aliased vals
  else .empty

/-! ## Opcode boundaries

The set of opcode start addresses of a code array, used to state the
jump-target / descriptor validity predicates of §4.D. -/

def insnStarts (code : List Nat) : Nat → Nat → List Nat
  | _, 0 => []
  | pc, fuel + 1 =>
    match code.get? pc with
    | none => []
    | some op =>
      pc :: (if op ≥ OpcodeArgMin then
               match decodeArg code (pc + 1) 0 0 (code.length + 1) with
               | some (_, pc2) => insnStarts code pc2 fuel
               | none => []
             else insnStarts code (pc + 1) fuel)

def opcodeStarts (code : List Nat) : List Nat := insnStarts code 0 (code.length + 1)

def isOpcodeStart (code : List Nat) (t : Nat) : Bool := t ∈ opcodeStarts code

/-! ## The hashtable (translation of hashtable.go)

The `map[Value]Value` of the source is rendered as an insertion-ordered
association list with structural key equality; the claims observe only
the `frozen`/`itercount` guards, never key collisions.  Deep freezing of
the stored values (`k.Freeze(); v.Freeze()`) concerns the values' own
state and is outside this standalone structure. -/

mutual
def Value.beq : Value → Value → Bool
  | .none, .none => true
  | .bool a, .bool b => a == b
  | .int a, .int b => a == b
  | .float a, .float b => a == b
  | .str a, .str b => a == b
  | .bytes a, .bytes b => a == b
  | .tuple a, .tuple b => Value.beqList a b
  | .listRef a, .listRef b => a == b
  | .cellRef a, .cellRef b => a == b
  | .func f1 d1 v1, .func f2 d2 v2 =>
    f1 == f2 && Value.beqList d1 d2 && Value.beqList v1 v2
  | .mandatory, .mandatory => true
  | _, _ => false
def Value.beqList : List Value → List Value → Bool
  | [], [] => true
  | x :: xs, y :: ys => Value.beq x y && Value.beqList xs ys
  | _, _ => false
end

structure Hashtable where
  entries : List (Value × Value) := []
  itercount : Nat := 0
  frozen : Bool := false

/-- `hashtable.checkMutable`: reports why the table must not be mutated. -/
def Hashtable.checkMutable (ht : Hashtable) (verb : String) : Option String :=
  if ht.frozen then some ("cannot " ++ verb ++ " frozen hash table")
  else if ht.itercount > 0 then some ("cannot " ++ verb ++ " hash table during iteration")
  else none

/-- `hashtable.freeze`: a one-way transition. -/
def Hashtable.freeze (ht : Hashtable) : Hashtable :=
  if ht.frozen then ht else { ht with frozen := true }

/-- `hashtable.insert`. -/
def Hashtable.insert (ht : Hashtable) (k v : Value) : Hashtable × Option String :=
  match ht.checkMutable "insert into" with
  | some e => (ht, some e)
  | none =>
    if ht.entries.any (fun kv => Value.beq kv.1 k) then
      ({ ht with entries :=
          ht.entries.map (fun kv => if Value.beq kv.1 k then (kv.1, v) else kv) }, none)
    else ({ ht with entries := ht.entries ++ [(k, v)] }, none)

/-- `hashtable.delete`. -/
def Hashtable.delete (ht : Hashtable) (k : Value) : Hashtable × Option String :=
  match ht.checkMutable "delete from" with
  | some e => (ht, some e)
  | none => ({ ht with entries := ht.entries.filter (fun kv => !Value.beq kv.1 k) }, none)

/-- `hashtable.clear`. -/
def Hashtable.clear (ht : Hashtable) : Hashtable × Option String :=
  match ht.checkMutable "clear" with
  | some e => (ht, some e)
  | none => ({ ht with entries := [] }, none)

/-- `hashtable.iterate` / `keyIterator.Done`: the itercount bump is
skipped on frozen tables. -/
def Hashtable.beginIterate (ht : Hashtable) : Hashtable :=
  if ht.frozen then ht else { ht with itercount := ht.itercount + 1 }

def Hashtable.doneIterate (ht : Hashtable) : Hashtable :=
  if ht.frozen then ht else { ht with itercount := ht.itercount - 1 }

/-! ## Concrete scenarios

Byte programs assembled by hand in the opcode numbering above (argless
opcodes are one byte, arguments below 128 are one varint byte).  They
realise the spec's literal scenarios over the interpreter model. -/

/-- A funcode with the given catch/defer tables, locals, cells,
parameter count, code and name. -/
def mkFn (cs ds : List DeferD) (lcls : List String) (clls : List Nat) (np : Int)
    (cd : List Nat) (nm : String) : Funcode :=
  { name := nm, maxStack := 8, numParams := np, numKwonlyParams := 0,
    hasVarargs := false, hasKwargs := false, locals := lcls, cells := clls,
    catches := cs, defers := ds, code := cd }

def gDefault : GSt := { maxSteps := 1000000 }

/-- Scenario S3 (spec §8, `catch.asm`): the top level jumps over a catch
body, builds `fn`, calls it; `fn` evaluates `1 + "a"` and throws; the
catch covering the CALL site runs `result = 2; return None`.

```
pc 0   JMP 8          pc 8   MAKETUPLE 0
pc 2   CONSTANT 2     pc 10  MAKEFUNC 0
pc 4   SETGLOBAL 0    pc 12  CALL 0
pc 6   NONE           pc 14  RETURN
pc 7   RETURN
```
with catch descriptor (8, 14, 2) covering the call. -/
def s3Top : Funcode :=
  mkFn [⟨8, 14, 2⟩] [] [] [] 0 [64,8, 67,2, 81,0, 29, 33, 68,0, 70,0, 85,0, 33] "top"

/-- `fn`: `CONSTANT 1; CONSTANT "a"; PLUS; RETURN`. -/
def s3Fn : Funcode := mkFn [] [] [] [] 0 [67,0, 67,1, 11, 33] "fn"

def s3Prog : IProg :=
  { funcs := [s3Top, s3Fn], constants := [.int 1, .str "a", .int 2],
    globalNames := ["result"] }

def s3G0 : GSt := { globals := [none], maxSteps := 1000000 }

/-- Scenario for C1 (after `defer.asm`): one defer block covering the
function epilogue; on execution its body would set global 0.

```
pc 0   JMP 7            pc 7   NONE
pc 2   CONSTANT 0       pc 8   RUNDEFER
pc 4   SETGLOBAL 0      pc 9   RETURN
pc 6   DEFEREXIT
```
with defer descriptor (7, 9, 2): it covers the RETURN at pc 9 and not
the return destination (-1), so by the spec it must run exactly once
before the function returns. -/
def c1Top : Funcode := mkFn [] [⟨7, 9, 2⟩] [] [] 0 [64,7, 67,0, 81,0, 44, 29, 43, 33] "top"

def c1Prog : IProg := { funcs := [c1Top], constants := [.int 1], globalNames := ["g"] }

def c1G0 : GSt := { globals := [none], maxSteps := 1000000 }

/-- Scenario for C6: `NONE; RETURN` with a catch descriptor covering
pc 0, on a thread whose `cancelReason` is already set. -/
def c6Top : Funcode := mkFn [⟨0, 1, 0⟩] [] [] [] 0 [29, 33] "top"

def c6Prog : IProg := { funcs := [c6Top] }

/-- The same code with no catch table. -/
def c6TopNC : Funcode := mkFn [] [] [] [] 0 [29, 33] "top"

def c6ProgNC : IProg := { funcs := [c6TopNC] }

def c6G0 : GSt := { maxSteps := 1000000, cancelReason := some "cc" }

/-- Scenario for C7 (APPEND): `LOCAL 0; NONE; APPEND; NONE; RETURN` with
the parameter bound to a frozen list. -/
def c7Top : Funcode := mkFn [] [] ["l"] [] 1 [74,0, 29, 39, 29, 33] "top"

def c7Prog : IProg := { funcs := [c7Top] }

def c7G0 : GSt := { lists := [{ frozen := true, elems := [] }], maxSteps := 1000000 }

/-- Scenario for C7 (SETLOCALCELL): `NONE; SETLOCALCELL 0; NONE; RETURN`
with local 0 spilled to a cell whose content is a frozen list. -/
def c7bTop : Funcode := mkFn [] [] ["x"] [0] 1 [29, 77,0, 29, 33] "top"

def c7bProg : IProg := { funcs := [c7bTop] }

def c7bG0 : GSt := { lists := [{ frozen := true, elems := [Value.int 1] }], maxSteps := 1000000 }

/-- Companion for C7's amended claim: `LOCAL 0; MAKETUPLE 0;
INPLACE_ADD; NONE; RETURN` on a frozen list — the guarded `+=` path does
fail with a "frozen" error. -/
def c7cTop : Funcode := mkFn [] [] ["l"] [] 1 [74,0, 68,0, 27, 29, 33] "top"

def c7cProg : IProg := { funcs := [c7cTop] }

/-- Scenario for C8 (the UNPACK leak): `NONE; NONE; MAKETUPLE 2;
UNPACK 1; NONE; RETURN` — the tuple has one value too many. -/
def c8Top : Funcode := mkFn [] [] [] [] 0 [29, 29, 68,2, 71,1, 29, 33] "top"

def c8Prog : IProg := { funcs := [c8Top] }

/-- Companion for C8's amended claim: `NONE; MAKETUPLE 1; ITERPUSH;
CONSTANT 1; CONSTANT "a"; PLUS; NONE; RETURN` — the loop breaks with an
in-flight error while an ITERPUSH iterator is live; the deferred cleanup
must still call its `Done()` exactly once. -/
def c8bTop : Funcode := mkFn [] [] [] [] 0 [29, 68,1, 34, 67,0, 67,1, 11, 29, 33] "top"

def c8bProg : IProg := { funcs := [c8bTop], constants := [.int 1, .str "a"] }

/-- Scenario for C9 (spec §8 S5): the top level calls `fn(1)`; `fn(n)`
calls `fn(0)` when `n` is truthy and returns None otherwise, so the
program terminates iff the recursive call is allowed.

top: `MAKETUPLE 0; MAKEFUNC 0; CONSTANT 1; CALL 256; RETURN`
fn:  `LOCAL 0; CJMP 6; NONE; RETURN; MAKETUPLE 0; MAKEFUNC 0;
      CONSTANT 0; CALL 256; RETURN`  (CALL arg 256 = one positional) -/
def c9Top : Funcode := mkFn [] [] [] [] 0 [68,0, 70,0, 67,1, 85,128,2, 33] "top"

def c9Fn : Funcode :=
  mkFn [] [] ["n"] [] 1 [74,0, 65,6, 29, 33, 68,0, 70,0, 67,0, 85,128,2, 33] "fn"

def c9ProgNoRec : IProg :=
  { funcs := [c9Top, c9Fn], constants := [.int 0, .int 1], recursion := false }

def c9ProgRec : IProg :=
  { funcs := [c9Top, c9Fn], constants := [.int 0, .int 1], recursion := true }

/-! Assembler inputs (exactly the repository's own `TestAsm` cases). -/

/-- The minimal well-formed program of spec scenario S1. -/
def s1Input : String := "program:\n\tfunction: Top 0 0 0\n\t\tcode:\n"

/-- An invalid integer constant; the offending section is `constants:`. -/
def c4Input : String := "program:\n\tconstants:\n\t\tint abc\n"

/-- The repository test case expecting "invalid jump index 2": a JMP
whose target (2) is not an opcode start of the two-instruction code. -/
def c5JmpInput : String := "program:\n\tfunction: Top 0 0 0\n\t\tcode:\n\t\t\tNOP\n\t\t\tJMP 2\n"

/-- A catch descriptor violating PC0 < PC1. -/
def c5CatchInput : String :=
  "program:\n\tfunction: Top 0 0 0\n\t\tcatches:\n\t\t\t5 3 1\n\t\tcode:\n\t\t\tNOP\n"

/-- The repository test case expecting "invalid PC0 index 1": PC0 = 1 is
not an opcode start of the single-NOP code. -/
def c5Catch2Input : String :=
  "program:\n\tfunction: Top 0 0 0\n\t\tcatches:\n\t\t\t1 2 3\n\t\tcode:\n\t\t\tNOP\n"

/-- The initial frame state of the C6 scenario's CallInternal. -/
def c6S0 : LSt :=
  { g := c6G0, stackFids := [0], f := c6Top, freevars := [], locals := [], stack := [],
    iterIds := [], pc := 0, frPc := 0, runDefer := false, caughtErr := none }

/-! ### C4 amended: every Asm failure carries a non-empty message -/

/-- The error slot holds no empty message. -/
def errNE (o : Option String) : Prop := ∀ e, o = some e → e ≠ ""

/-! ### C8 amended: the exactly-once discipline of iterator `Done()`

The live-iterator invariant: `L` is the concatenation of the iterator
stacks of all active frames (outer frames first).  Every live
`ITERPUSH` iterator (member of `L`) is a push-kind iterator with no
`Done()` yet; every push- or varargs-kind iterator that is no longer
live has received `Done()` exactly once.  Unpack-kind iterators are
exempt: the UNPACK error path leaks them (claim C8's counterexample). -/

def pushInv (its : List IterSt) (L : List Nat) : Prop :=
  L.Nodup ∧
  (∀ id ∈ L, ∃ it, its.get? id = some it ∧
    it.kind = IterKind.push ∧ it.doneCount = 0) ∧
  (∀ i it, its.get? i = some it →
    (it.kind = IterKind.push ∨ it.kind = IterKind.varargs) →
    i ∉ L → it.doneCount = 1)

/-- The loop contract: if the live list (ambient `E` plus the frame's
iterator stack) satisfies the invariant, so does the returned state with
the returned iterator stack. -/
def LoopOK (loop : LoopFn) : Prop :=
  ∀ (E : List Nat) (s : LSt), pushInv s.g.iters (E ++ s.iterIds) →
    pushInv (loop s).1.iters (E ++ (loop s).2.1)

/-- The call contract: a call preserves the invariant for any ambient
live list (its own frame starts and is cleaned up internally). -/
def CallOK (call : CallT) : Prop :=
  ∀ (g : GSt) (stackFids : List Nat) (fid : Nat) (fv args : List Value)
    (kwargs : List (Value × Value)) (E : List Nat), pushInv g.iters E →
    pushInv (call g stackFids fid fv args kwargs).1.iters E

theorem runLoop_zero (pr : IProg) (s : LSt) :
    runLoop pr 0 s = (s.g, s.iterIds, Outcome.outOfFuel) := rfl

theorem runLoop_succ (pr : IProg) (n : Nat) (s : LSt) :
    runLoop pr (n + 1) s = runLoopBody pr (runLoop pr n) (callFn pr n) s := rfl

theorem callFn_zero (pr : IProg) (g : GSt) (stackFids : List Nat) (fid : Nat)
    (freevars : List Value) (args : List Value) (kwargs : List (Value × Value)) :
    callFn pr 0 g stackFids fid freevars args kwargs = (g, Outcome.outOfFuel) := rfl

theorem callFn_succ (pr : IProg) (n : Nat) (g : GSt) (stackFids : List Nat) (fid : Nat)
    (freevars : List Value) (args : List Value) (kwargs : List (Value × Value)) :
    callFn pr (n + 1) g stackFids fid freevars args kwargs =
      callFnBody pr (runLoop pr n) g stackFids fid freevars args kwargs := rfl

/-! ## Claims -/

/-- If the downward scan finds no handler, no descriptor covers the pc. -/
theorem findCatch_none_spec (cs : List DeferD) (pcv : Nat) :
    findCatch cs pcv = none → ∀ d ∈ cs, d.Covers (pcv : Int) = false := by
  induction cs with
  | nil => intro _ d hd; cases hd
  | cons c0 rest ih =>
    intro h d hd
    unfold findCatch at h
    cases hr : findCatch rest pcv with
    | some h' => rw [hr] at h; cases h
    | none =>
      rw [hr] at h
      by_cases hc : c0.Covers (pcv : Int) = true
      · simp [hc] at h
      · cases hd with
        | head => simpa using hc
        | tail _ hmem => exact ih hr d hmem

/-- The downward scan returns the covering descriptor of greatest index:
everything after it in the table does not cover the pc. -/
theorem findCatch_some_spec (cs : List DeferD) (pcv : Nat) (c : DeferD) :
    findCatch cs pcv = some c →
    ∃ pre post, cs = pre ++ c :: post ∧ c.Covers (pcv : Int) = true ∧
      ∀ d ∈ post, d.Covers (pcv : Int) = false := by
  induction cs with
  | nil => intro h; cases h
  | cons c0 rest ih =>
    intro h
    unfold findCatch at h
    cases hr : findCatch rest pcv with
    | some h' =>
      rw [hr] at h
      cases h
      obtain ⟨pre, post, hsplit, hcov, hpost⟩ := ih hr
      exact ⟨c0 :: pre, post, by rw [hsplit]; rfl, hcov, hpost⟩
    | none =>
      rw [hr] at h
      by_cases hc : c0.Covers (pcv : Int) = true
      · simp only [hc, if_true, Option.some.injEq] at h
        subst h
        exact ⟨[], rest, rfl, hc, findCatch_none_spec rest pcv hr⟩
      · simp [hc] at h

/-- C2 — after the dispatch loop breaks with an in-flight error, the
catch table is scanned from the highest index downward and the first
descriptor covering the current pc becomes the handler: the error moves
into `caughtErr`, pc is set to the handler's StartPC, and the loop
resumes; with no covering descriptor the error is returned to the
caller.  Concretely, scenario S3 (a top-level catch around a call to a
function that evaluates `1 + "a"`) finishes without error, returns None
and leaves global `result = 2`. -/
theorem c2_catch_search_and_s3 :
    (∀ (cs : List DeferD) (pcv : Nat) (c : DeferD), findCatch cs pcv = some c →
      ∃ pre post, cs = pre ++ c :: post ∧ c.Covers (pcv : Int) = true ∧
        ∀ d ∈ post, d.Covers (pcv : Int) = false) ∧
    (∀ (cs : List DeferD) (pcv : Nat), findCatch cs pcv = none →
      ∀ d ∈ cs, d.Covers (pcv : Int) = false) ∧
    (∀ (s : LSt) (e : String) (c : DeferD), findCatch s.f.catches s.frPc = some c →
      errXfer s e = Sum.inl { s with caughtErr := some e, pc := c.startPC }) ∧
    (∀ (s : LSt) (e : String), findCatch s.f.catches s.frPc = none →
      errXfer s e = Sum.inr (s.g, s.iterIds, Outcome.err e)) ∧
    (callFn s3Prog 1000 s3G0 [0] 0 [] [] []).2 = Outcome.ret Value.none ∧
    (callFn s3Prog 1000 s3G0 [0] 0 [] [] []).1.globals = [some (Value.int 2)] := by
  refine ⟨findCatch_some_spec, findCatch_none_spec, ?_, ?_, rfl, rfl⟩
  · intro s e c h; unfold errXfer; rw [h]
  · intro s e h; unfold errXfer; rw [h]

/-- Witness for C2's universally quantified parts, at the S3 catch table
and the pc of the CALL opcode. -/
theorem c2_catch_search_witness :
    ∃ pre post, s3Top.catches = pre ++ (⟨8, 14, 2⟩ : DeferD) :: post ∧
      (⟨8, 14, 2⟩ : DeferD).Covers (12 : Nat) = true ∧
      ∀ d ∈ post, d.Covers (12 : Nat) = false :=
  c2_catch_search_and_s3.1 s3Top.catches 12 ⟨8, 14, 2⟩ rfl

/-- C1 — the defer descriptor of the C1 scenario is eligible for the
control transfer from the RUNDEFER-flagged RETURN (pc 9) to the return
destination (-1), and `hasDeferredExecution` (which is never called)
would select its body at pc 2; yet executing the function returns
normally with the defer body never run: the global it would set is
untouched.  This evaluates the code at the failing input of the
code-bug: the RUNDEFER/JMP/RETURN handlers and DEFEREXIT are TODO stubs
that clear `runDefer` and transfer control without running any deferred
block. -/
theorem c1_defers_never_executed :
    hasDeferredExecution 9 (-1) c1Top.defers c1Top.catches = some 2 ∧
    (callFn c1Prog 100 c1G0 [0] 0 [] [] []).2 = Outcome.ret Value.none ∧
    (callFn c1Prog 100 c1G0 [0] 0 [] [] []).1.globals = [none] :=
  ⟨rfl, rfl, rfl⟩

/-- C3 — `Dasm` is unimplemented: it panics ("unreachable") on every
program, in particular on the minimal well-formed program produced by
`Asm` from spec scenario S1, so the round-trip `Asm(Dasm(P))` is
impossible. -/
theorem c3_dasm_panics :
    (∀ p : Program, Dasm p = GoResult.panicked "unreachable") ∧
    (Asm s1Input).2 = none ∧
    ((Asm s1Input).1.map (fun p => Dasm p)) = some (GoResult.panicked "unreachable") :=
  ⟨fun _ => rfl, rfl, rfl⟩

/-- C5 — `Asm` performs none of the descriptor / jump-target validation
the spec requires (the source has `TODO: validate that catch blocks
point to valid addresses`): it accepts the repository's own test inputs
that expect rejection — a JMP to address 2 which is not an opcode start,
a catch descriptor `5 3 1` violating `PC0 < PC1`, and a catch descriptor
`1 2 3` whose PC0 is not an opcode start. -/
theorem c5_asm_accepts_invalid_descriptors_and_jumps :
    (Asm c5JmpInput).2 = none ∧
    ((Asm c5JmpInput).1.bind Program.toplevel).map Funcode.code = some [opNOP, opJMP, 2] ∧
    isOpcodeStart [opNOP, opJMP, 2] 2 = false ∧
    (Asm c5CatchInput).2 = none ∧
    ((Asm c5CatchInput).1.bind Program.toplevel).map Funcode.catches =
      some [⟨5, 3, 1⟩] ∧
    ¬ (5 < 3) ∧
    (Asm c5Catch2Input).2 = none ∧
    ((Asm c5Catch2Input).1.bind Program.toplevel).map Funcode.catches =
      some [⟨1, 2, 3⟩] ∧
    isOpcodeStart [opNOP] 1 = false :=
  ⟨rfl, rfl, rfl, rfl, rfl, by decide, rfl, rfl, rfl⟩

/-- C7 counterexample — a frozen List targeted by APPEND is mutated
without any error (the APPEND body has no frozen check), and a cell
holding a frozen value is overwritten by SETLOCALCELL without any error
(cells carry no frozen flag at all): both runs return None and the
mutation is visible in the heap. -/
theorem c7_counterexample :
    (callFn c7Prog 100 c7G0 [0] 0 [] [Value.listRef 0] []).2 = Outcome.ret Value.none ∧
    (callFn c7Prog 100 c7G0 [0] 0 [] [Value.listRef 0] []).1.lists =
      [{ frozen := true, itercount := 0, elems := [Value.none] }] ∧
    (callFn c7bProg 100 c7bG0 [0] 0 [] [Value.listRef 0] []).2 = Outcome.ret Value.none ∧
    (callFn c7bProg 100 c7bG0 [0] 0 [] [Value.listRef 0] []).1.cells = [some Value.none] :=
  ⟨rfl, rfl, rfl, rfl⟩

/-- C8 counterexample — on the too-many-values error path of UNPACK the
acquired iterator's `Done()` is never called: the run ends with the
unpack error while the iterator's done-count is 0. -/
theorem c8_counterexample :
    (callFn c8Prog 100 gDefault [0] 0 [] [] []).2 =
      Outcome.err "too many values to unpack (got 2, want 1)" ∧
    (callFn c8Prog 100 gDefault [0] 0 [] [] []).1.iters.map
      (fun it => (it.kind, it.doneCount)) = [(IterKind.unpack, 0)] :=
  ⟨rfl, rfl⟩

/-- C4 counterexample — on the invalid-integer-constant input the error
message ("invalid integer: abc") does not contain the offending section
keyword ("constants"), and the Program returned alongside the error is
non-nil and partially populated — it even carries a bogus zero constant
appended by the failed parse. -/
theorem c4_counterexample :
    (Asm c4Input).2 = some "invalid integer: abc" ∧
    ¬ List.IsInfix "constants".data "invalid integer: abc".data ∧
    ((Asm c4Input).1.map (fun p => p.constants)) = some [Const.int 0] :=
  ⟨rfl, by decide, rfl⟩

/-- C7 amended — freezing is monotone and every checkMutable-guarded
mutation fails on a frozen value with an error containing "frozen",
leaving the value unchanged: the hashtable operations of the source, and
the interpreter's INPLACE_ADD list extension (which errors with
"cannot apply += to frozen list" and does not mutate the frozen list).
The APPEND / SETLOCALCELL exceptions are exhibited by the
counterexample. -/
theorem c7_amended :
    (∀ ht : Hashtable, (ht.freeze).frozen = true) ∧
    (∀ ht : Hashtable, ht.frozen = true → ht.freeze = ht) ∧
    (∀ (ht : Hashtable) (k v : Value), ht.frozen = true →
      ht.insert k v = (ht, some "cannot insert into frozen hash table")) ∧
    (∀ (ht : Hashtable) (k : Value), ht.frozen = true →
      ht.delete k = (ht, some "cannot delete from frozen hash table")) ∧
    (∀ ht : Hashtable, ht.frozen = true →
      ht.clear = (ht, some "cannot clear frozen hash table")) ∧
    (∀ (ht : Hashtable) (k v : Value), ((ht.insert k v).1).frozen = ht.frozen) ∧
    (∀ (ht : Hashtable) (k : Value), ((ht.delete k).1).frozen = ht.frozen) ∧
    (∀ ht : Hashtable, ((ht.clear).1).frozen = ht.frozen) ∧
    (∀ ht : Hashtable, ht.beginIterate.frozen = ht.frozen) ∧
    (∀ ht : Hashtable, ht.doneIterate.frozen = ht.frozen) ∧
    (callFn c7cProg 100 c7G0 [0] 0 [] [Value.listRef 0] []).2 =
      Outcome.err "cannot apply += to frozen list" ∧
    (callFn c7cProg 100 c7G0 [0] 0 [] [Value.listRef 0] []).1.lists =
      [{ frozen := true, itercount := 0, elems := [] }] := by
  refine ⟨?_, ?_, ?_, ?_, ?_, ?_, ?_, ?_, ?_, ?_, rfl, rfl⟩
  · intro ht; unfold Hashtable.freeze; split <;> simp_all
  · intro ht h; unfold Hashtable.freeze; simp [h]
  · intro ht k v h; simp [Hashtable.insert, Hashtable.checkMutable, h]
  · intro ht k h; simp [Hashtable.delete, Hashtable.checkMutable, h]
  · intro ht h; simp [Hashtable.clear, Hashtable.checkMutable, h]
  · intro ht k v
    unfold Hashtable.insert Hashtable.checkMutable
    split <;> simp_all <;> split <;> simp
  · intro ht k
    unfold Hashtable.delete Hashtable.checkMutable
    split <;> simp_all
  · intro ht
    unfold Hashtable.clear Hashtable.checkMutable
    split <;> simp_all
  · intro ht; unfold Hashtable.beginIterate; split <;> rfl
  · intro ht; unfold Hashtable.doneIterate; split <;> rfl

/-- Witness for C7's amended claim: inserting into a concrete frozen
table fails with the "frozen" error and leaves the table unchanged. -/
theorem c7_amended_witness :
    (Hashtable.insert { entries := [], itercount := 0, frozen := true } Value.none Value.none)
      = ({ entries := [], itercount := 0, frozen := true },
          some "cannot insert into frozen hash table") :=
  c7_amended.2.2.1 { entries := [], itercount := 0, frozen := true } Value.none Value.none rfl

/-- C9 — with recursion disabled, a call whose funcode already appears
in a frame below the current one fails immediately with the
"called recursively" error, with the shared state returned untouched
(no locals allocated, no cells spilled, no arguments bound); with
recursion enabled the same program proceeds: the self-calling scenario
terminates and returns None. -/
theorem c9_recursion_guard :
    (∀ (pr : IProg) (fuel : Nat) (g : GSt) (stackFids : List Nat) (fid : Nat)
        (fv args : List Value) (kw : List (Value × Value)) (f : Funcode),
      pr.funcs.get? fid = some f → pr.recursion = false → fid ∈ stackFids.dropLast →
      callFn pr (fuel + 1) g stackFids fid fv args kw =
        (g, Outcome.err ("function " ++ f.name ++ " called recursively"))) ∧
    (callFn c9ProgNoRec 100 gDefault [0] 0 [] [] []).2 =
      Outcome.err "function fn called recursively" ∧
    (callFn c9ProgRec 100 gDefault [0] 0 [] [] []).2 = Outcome.ret Value.none := by
  refine ⟨?_, rfl, rfl⟩
  intro pr fuel g stackFids fid fv args kw f hget hrec hmem
  rw [callFn_succ]
  unfold callFnBody
  rw [hget]
  simp [hrec, hmem]

/-- Witness for C9's entry-check clause, at the recursive call of the
concrete scenario (frame stack [0, 1, 1], callee funcode 1). -/
theorem c9_recursion_guard_witness :
    callFn c9ProgNoRec 5 gDefault [0, 1, 1] 1 [] [Value.int 0] [] =
      (gDefault, Outcome.err ("function " ++ c9Fn.name ++ " called recursively")) :=
  c9_recursion_guard.1 c9ProgNoRec 4 gDefault [0, 1, 1] 1 [] [Value.int 0] [] c9Fn
    rfl rfl (by decide)

/-- C10 — the CALL family's positional-argument preparation yields a
sub-slice of the caller's operand stack only when the callee is a
starlark `*Function` and no `*args` sequence is present; in every other
case with positional arguments it yields a freshly allocated copy of the
same values, and with no positional arguments it yields the nil tuple.
Hence a callee that may mutate its argument tuple never aliases the
caller's stack (and `CallInternal` itself only reads `args`). -/
theorem c10_positional_copy :
    (∀ (cif star : Bool) (npos : Nat) (st vs : List Value),
      preparePositional cif star npos st = PosArgs.aliased vs →
      cif = true ∧ star = false ∧ vs = (st.take npos).reverse) ∧
    (∀ (cif star : Bool) (npos : Nat) (st : List Value),
      (cif = false ∨ star = true) → 0 < npos →
      preparePositional cif star npos st = PosArgs.fresh ((st.take npos).reverse)) ∧
    (∀ (cif star : Bool) (st : List Value),
      preparePositional cif star 0 st = PosArgs.empty) := by
  refine ⟨?_, ?_, ?_⟩
  · intro cif star npos st vs h
    unfold preparePositional at h
    by_cases hn : 0 < npos
    · simp only [hn, if_true] at h
      cases cif <;> cases star <;> simp_all
    · simp [hn] at h
  · intro cif star npos st h hn
    unfold preparePositional
    cases h <;> simp_all
  · intro cif star st; simp [preparePositional]

/-- Witness for C10: a non-function callee with one positional argument
gets a fresh copy. -/
theorem c10_positional_copy_witness :
    preparePositional false false 1 [Value.int 7] = PosArgs.fresh [Value.int 7] :=
  c10_positional_copy.2.1 false false 1 [Value.int 7] (Or.inl rfl) (by decide)

/-- `Thread.Cancel` never fires on an already-cancelled thread. -/
theorem cancelThread_of_some (g : GSt) (r msg : String)
    (h : g.cancelReason = some r) : cancelThread g msg = g := by
  unfold cancelThread; simp [h]

/-- Step accounting preserves an already-set cancellation reason. -/
theorem stepThread_cancelReason_some (g : GSt) (r : String)
    (h : g.cancelReason = some r) : (stepThread g).cancelReason = some r := by
  unfold stepThread cancelThread
  dsimp only
  split
  · split
    · exact h
    · split
      · simp_all
      · exact h
  · exact h

/-- On a cancelled thread whose current Funcode is `c6Top` (catch table
covering pc 0) and whose frame pc is 0, the loop re-raises the
cancellation error at the top of every iteration and the catch lookup
re-catches it, forever: no amount of fuel makes the loop return. -/
theorem c6_loop_lemma : ∀ (n : Nat) (s : LSt) (r : String),
    s.f = c6Top → s.frPc = 0 → s.g.cancelReason = some r →
    (runLoop c6Prog n s).2.2 = Outcome.outOfFuel := by
  intro n
  induction n with
  | zero => intro s r _ _ _; rfl
  | succ n ih =>
    intro s r hf hpc hc
    rw [runLoop_succ]
    unfold runLoopBody
    have hcov : findCatch s.f.catches s.frPc = some ⟨0, 1, 0⟩ := by
      rw [hf, hpc]; rfl
    simp only [stepThread_cancelReason_some s.g r hc, errXfer, hcov]
    exact ih _ r hf hpc (stepThread_cancelReason_some s.g r hc)

/-- C6 — the catch lookup does NOT skip cancellation errors: with a
catch descriptor covering the current pc, the cancellation error raised
by `Thread.Cancel` is caught and the handler re-entered on every
iteration, so the call never returns at all (out of fuel for every
fuel, i.e. the Go loop diverges); without a covering catch the same
cancellation error is returned to the caller.  The claim — cancellation
always propagates, uncatchable — is the spec's and the TODO comments'
intent, which the code does not implement. -/
theorem c6_cancellation_is_caught :
    (∀ fuel : Nat, (callFn c6Prog fuel c6G0 [0] 0 [] [] []).2 = Outcome.outOfFuel) ∧
    (callFn c6ProgNC 50 c6G0 [0] 0 [] [] []).2 =
      Outcome.err "Starlark computation cancelled: cc" := by
  refine ⟨?_, rfl⟩
  intro fuel
  cases fuel with
  | zero => rfl
  | succ n => exact c6_loop_lemma n c6S0 "cc" rfl rfl rfl

theorem errNE_none : errNE none := by intro e he; cases he

theorem append_ne_empty (a b : String) (h : a.data ≠ []) : a ++ b ≠ "" := by
  cases a with | mk da =>
  cases b with | mk db =>
  intro hc
  have hd : da ++ db = [] := congrArg String.data hc
  rcases da with _ | ⟨c, cs⟩
  · exact h rfl
  · simp at hd

theorem errNE_some_append (lit s : String) (h : lit.data ≠ []) :
    errNE (some (lit ++ s)) := by
  intro e he
  cases he
  exact append_ne_empty lit s h

theorem data_append (a b : String) : (a ++ b).data = a.data ++ b.data := by
  cases a; cases b; rfl

theorem append_data_ne (a b : String) (h : a.data ≠ []) : (a ++ b).data ≠ [] := by
  rw [data_append]
  intro hc
  rcases ha : a.data with _ | ⟨c, cs⟩
  · exact h ha
  · rw [ha] at hc; cases hc

theorem asmNext_go_err (st : AsmSt) (lines : List String) :
    (asmNext.go st lines).1.err = st.err := by
  induction lines with
  | nil => rfl
  | cons l rest ih =>
    unfold asmNext.go
    cases h : fieldsOf l with
    | nil => exact ih
    | cons f fs =>
      by_cases hs : strStartsWith f "#" = true
      · simp only [hs, if_true]; exact ih
      · simp only [hs, Bool.false_eq_true, if_false]

theorem asmNext_err (st : AsmSt) : (asmNext st).1.err = st.err := by
  unfold asmNext
  by_cases h : st.err.isSome
  · simp [h]
  · simp only [h, Bool.false_eq_true, if_false]; exact asmNext_go_err st st.lines

theorem errNE_asmNext (st : AsmSt) (h : errNE st.err) : errNE (asmNext st).1.err := by
  rw [asmNext_err]; exact h

theorem modProg_err (st : AsmSt) (f : Program → Program) : (st.modProg f).err = st.err := by
  unfold AsmSt.modProg; cases st.prog <;> rfl

theorem modFn_err (st : AsmSt) (f : Funcode → Funcode) : (st.modFn f).err = st.err := by
  unfold AsmSt.modFn; cases st.fn <;> rfl

theorem errNE_intF (st : AsmSt) (v : String) (h : errNE st.err) :
    errNE (st.intF v).1.err := by
  unfold AsmSt.intF
  cases parseInt64 v with
  | some i => exact h
  | none => exact errNE_some_append "invalid integer: " v (by decide)

theorem errNE_uintF (st : AsmSt) (v : String) (h : errNE st.err) :
    errNE (st.uintF v).1.err := by
  unfold AsmSt.uintF
  cases parseUint64 v with
  | some u => exact h
  | none => exact errNE_some_append "invalid unsigned integer: " v (by decide)

theorem errNE_asmProgram (st : AsmSt) (fs : List String) (h : errNE st.err) :
    errNE (asmProgram st fs).err := by
  unfold asmProgram
  by_cases hs : st.err.isSome
  · simp only [hs, if_true]; exact h
  · simp only [hs, Bool.false_eq_true, if_false]
    cases fs with
    | nil => intro e he; cases he; decide
    | cons f rest =>
      by_cases hf : eqFold f "program:" = true
      · simp only [hf, if_true]; exact h
      · simp only [hf, Bool.false_eq_true, if_false]
        exact errNE_some_append "expected program section, found " f (by decide)

theorem errNE_asmNameLoop (push : AsmSt → String → AsmSt)
    (hpush : ∀ st n, errNE st.err → errNE (push st n).err) :
    ∀ (fuel : Nat) (st : AsmSt), errNE st.err → errNE (asmNameLoop push fuel st).1.err := by
  intro fuel
  induction fuel with
  | zero => intro st h; exact h
  | succ n ih =>
    intro st h
    unfold asmNameLoop
    have h1 := errNE_asmNext st h
    cases hfs : (asmNext st).2 with
    | nil => simp only [hfs]; exact h1
    | cons f rest =>
      simp only [hfs]
      by_cases hsec : isSection f = true
      · simp only [hsec, if_true]; exact h1
      · simp only [hsec, Bool.false_eq_true, if_false]; exact ih _ (hpush _ _ h1)

theorem errNE_modProg_push (st : AsmSt) (f : Program → Program) (h : errNE st.err) :
    errNE (st.modProg f).err := by rw [modProg_err]; exact h

theorem errNE_modFn_push (st : AsmSt) (f : Funcode → Funcode) (h : errNE st.err) :
    errNE (st.modFn f).err := by rw [modFn_err]; exact h

theorem errNE_asmLoads (st : AsmSt) (fs : List String) (h : errNE st.err) :
    errNE (asmLoads st fs).1.err := by
  unfold asmLoads
  by_cases hs : st.err.isSome
  · simp only [hs, if_true]; exact h
  · simp only [hs, Bool.false_eq_true, if_false]
    cases fs with
    | nil => exact h
    | cons f rest =>
      by_cases hf : eqFold f "loads:" = true
      · simp only [hf, if_true]
        exact errNE_asmNameLoop _ (fun st n h => errNE_modProg_push st _ h) _ st h
      · simp only [hf, Bool.false_eq_true, if_false]; exact h

theorem errNE_asmNames (st : AsmSt) (fs : List String) (h : errNE st.err) :
    errNE (asmNames st fs).1.err := by
  unfold asmNames
  by_cases hs : st.err.isSome
  · simp only [hs, if_true]; exact h
  · simp only [hs, Bool.false_eq_true, if_false]
    cases fs with
    | nil => exact h
    | cons f rest =>
      by_cases hf : eqFold f "names:" = true
      · simp only [hf, if_true]
        exact errNE_asmNameLoop _ (fun st n h => errNE_modProg_push st _ h) _ st h
      · simp only [hf, Bool.false_eq_true, if_false]; exact h

theorem errNE_asmGlobals (st : AsmSt) (fs : List String) (h : errNE st.err) :
    errNE (asmGlobals st fs).1.err := by
  unfold asmGlobals
  by_cases hs : st.err.isSome
  · simp only [hs, if_true]; exact h
  · simp only [hs, Bool.false_eq_true, if_false]
    cases fs with
    | nil => exact h
    | cons f rest =>
      by_cases hf : eqFold f "globals:" = true
      · simp only [hf, if_true]
        exact errNE_asmNameLoop _ (fun st n h => errNE_modProg_push st _ h) _ st h
      · simp only [hf, Bool.false_eq_true, if_false]; exact h

theorem errNE_asmLocals (st : AsmSt) (fs : List String) (h : errNE st.err) :
    errNE (asmLocals st fs).1.err := by
  unfold asmLocals
  by_cases hs : st.err.isSome
  · simp only [hs, if_true]; exact h
  · simp only [hs, Bool.false_eq_true, if_false]
    cases fs with
    | nil => exact h
    | cons f rest =>
      by_cases hf : eqFold f "locals:" = true
      · simp only [hf, if_true]
        exact errNE_asmNameLoop _ (fun st n h => errNE_modFn_push st _ h) _ st h
      · simp only [hf, Bool.false_eq_true, if_false]; exact h

theorem errNE_asmFreevars (st : AsmSt) (fs : List String) (h : errNE st.err) :
    errNE (asmFreevars st fs).1.err := by
  unfold asmFreevars
  by_cases hs : st.err.isSome
  · simp only [hs, if_true]; exact h
  · simp only [hs, Bool.false_eq_true, if_false]
    cases fs with
    | nil => exact h
    | cons f rest =>
      by_cases hf : eqFold f "freevars:" = true
      · simp only [hf, if_true]
        exact errNE_asmNameLoop _ (fun st n h => errNE_modFn_push st _ h) _ st h
      · simp only [hf, Bool.false_eq_true, if_false]; exact h

theorem errNE_asmCellsLoop : ∀ (fuel : Nat) (st : AsmSt), errNE st.err →
    errNE (asmCellsLoop fuel st).1.err := by
  intro fuel
  induction fuel with
  | zero => intro st h; exact h
  | succ n ih =>
    intro st h
    unfold asmCellsLoop
    have h1 := errNE_asmNext st h
    cases hfs : (asmNext st).2 with
    | nil => simp only [hfs]; exact h1
    | cons f rest =>
      simp only [hfs]
      split
      · exact h1
      · split
        · exact h1
        · split
          · exact ih _ (errNE_modFn_push _ _ h1)
          · intro e he
            cases he
            exact append_ne_empty _ _ (append_data_ne _ _ (by decide))

theorem errNE_asmCells (st : AsmSt) (fs : List String) (h : errNE st.err) :
    errNE (asmCells st fs).1.err := by
  unfold asmCells
  by_cases hs : st.err.isSome
  · simp only [hs, if_true]; exact h
  · simp only [hs, Bool.false_eq_true, if_false]
    cases fs with
    | nil => exact h
    | cons f rest =>
      by_cases hf : eqFold f "cells:" = true
      · simp only [hf, if_true]; exact errNE_asmCellsLoop _ st h
      · simp only [hf, Bool.false_eq_true, if_false]; exact h

theorem errNE_asmCatchesLoop : ∀ (fuel : Nat) (st : AsmSt), errNE st.err →
    errNE (asmCatchesLoop fuel st).1.err := by
  intro fuel
  induction fuel with
  | zero => intro st h; exact h
  | succ n ih =>
    intro st h
    unfold asmCatchesLoop
    have h1 := errNE_asmNext st h
    cases hfs : (asmNext st).2 with
    | nil => simp only [hfs]; exact h1
    | cons f rest =>
      simp only [hfs]
      split
      · exact h1
      · split
        · intro e he
          cases he
          exact append_ne_empty _ _ (append_data_ne _ _ (by decide))
        · exact ih _ (errNE_modFn_push _ _
            (errNE_uintF _ _ (errNE_uintF _ _ (errNE_uintF _ _ h1))))

theorem errNE_asmCatches (st : AsmSt) (fs : List String) (h : errNE st.err) :
    errNE (asmCatches st fs).1.err := by
  unfold asmCatches
  by_cases hs : st.err.isSome
  · simp only [hs, if_true]; exact h
  · simp only [hs, Bool.false_eq_true, if_false]
    cases fs with
    | nil => exact h
    | cons f rest =>
      by_cases hf : eqFold f "catches:" = true
      · simp only [hf, if_true]; exact errNE_asmCatchesLoop _ st h
      · simp only [hf, Bool.false_eq_true, if_false]; exact h

theorem errNE_asmConstantsLoop : ∀ (fuel : Nat) (st : AsmSt), errNE st.err →
    errNE (asmConstantsLoop fuel st).1.err := by
  intro fuel
  induction fuel with
  | zero => intro st h; exact h
  | succ n ih =>
    intro st h
    unfold asmConstantsLoop
    have h1 := errNE_asmNext st h
    cases hfs : (asmNext st).2 with
    | nil => simp only [hfs]; exact h1
    | cons f rest =>
      simp only [hfs]
      split
      · exact h1
      · split
        · intro e he
          cases he
          exact append_ne_empty _ _ (append_data_ne _ _ (by decide))
        · split
          · exact ih _ (errNE_modProg_push _ _ (errNE_intF _ _ h1))
          · split
            · split
              · exact ih _ (errNE_modProg_push _ _ h1)
              · intro e he
                cases he
                exact append_ne_empty "invalid float: " _ (by decide)
            · split
              · split
                · exact ih _ (errNE_modProg_push _ _ h1)
                · intro e he
                  cases he
                  exact append_ne_empty "invalid bigint: " _ (by decide)
              · split
                · split
                  · exact ih _ (errNE_modProg_push _ _ h1)
                  · intro e he
                    cases he
                    exact append_ne_empty "invalid string: " _ (by decide)
                · split
                  · split
                    · exact ih _ (errNE_modProg_push _ _ h1)
                    · intro e he
                      cases he
                      exact append_ne_empty "invalid bytes: " _ (by decide)
                  · intro e he
                    cases he
                    exact append_ne_empty "invalid constant type: " _ (by decide)

theorem errNE_asmConstants (st : AsmSt) (fs : List String) (h : errNE st.err) :
    errNE (asmConstants st fs).1.err := by
  unfold asmConstants
  by_cases hs : st.err.isSome
  · simp only [hs, if_true]; exact h
  · simp only [hs, Bool.false_eq_true, if_false]
    cases fs with
    | nil => exact h
    | cons f rest =>
      by_cases hf : eqFold f "constants:" = true
      · simp only [hf, if_true]; exact errNE_asmConstantsLoop _ st h
      · simp only [hf, Bool.false_eq_true, if_false]; exact h

theorem errNE_asmCodeLoop : ∀ (fuel : Nat) (st : AsmSt), errNE st.err →
    errNE (asmCodeLoop fuel st).1.err := by
  intro fuel
  induction fuel with
  | zero => intro st h; exact h
  | succ n ih =>
    intro st h
    unfold asmCodeLoop
    have h1 := errNE_asmNext st h
    cases hfs : (asmNext st).2 with
    | nil => simp only [hfs]; exact h1
    | cons f rest =>
      simp only [hfs]
      split
      · exact h1
      · split
        · intro e he
          cases he
          exact append_ne_empty "invalid opcode: " _ (by decide)
        · split
          · split
            · intro e he
              cases he
              exact append_ne_empty _ _
                (append_data_ne _ _ (append_data_ne _ _ (append_data_ne _ _ (by decide))))
            · exact ih _ (errNE_modFn_push _ _ (errNE_uintF _ _ h1))
          · split
            · intro e he
              cases he
              exact append_ne_empty _ _
                (append_data_ne _ _ (append_data_ne _ _ (append_data_ne _ _ (by decide))))
            · exact ih _ (errNE_modFn_push _ _ h1)

theorem errNE_asmCode (st : AsmSt) (fs : List String) (h : errNE st.err) :
    errNE (asmCode st fs).1.err := by
  unfold asmCode
  by_cases hs : st.err.isSome
  · simp only [hs, if_true]; exact h
  · simp only [hs, Bool.false_eq_true, if_false]
    cases fs with
    | nil => intro e he; cases he; decide
    | cons f rest =>
      by_cases hf : eqFold f "code:" = true
      · simp only [hf, if_true]; exact errNE_asmCodeLoop _ st h
      · simp only [hf, Bool.false_eq_true, if_false]
        exact errNE_some_append "expected code section, found " f (by decide)

theorem errNE_asmFunction (st : AsmSt) (fs : List String) (h : errNE st.err) :
    errNE (asmFunction st fs).1.err := by
  unfold asmFunction
  split
  · exact h
  · split
    · exact h
    · split
      · exact h
      · split
        · apply errNE_asmNext
          intro e he
          cases he
          exact append_ne_empty _ _ (append_data_ne _ _ (append_data_ne _ _ (by decide)))
        · apply errNE_modProg_push
          apply errNE_asmCode
          apply errNE_asmCatches
          apply errNE_asmFreevars
          apply errNE_asmCells
          apply errNE_asmLocals
          apply errNE_asmNext
          exact errNE_intF _ _ (errNE_intF _ _ (errNE_intF _ _ h))

theorem errNE_asmFuncLoop : ∀ (fuel : Nat) (st : AsmSt) (fs : List String),
    errNE st.err → errNE (asmFuncLoop fuel st fs).1.err := by
  intro fuel
  induction fuel with
  | zero => intro st fs h; exact h
  | succ n ih =>
    intro st fs h
    unfold asmFuncLoop
    by_cases hc : st.err.isNone ∧ fs.head? = some "function:"
    · simp only [hc, if_true]
      exact ih _ _ (errNE_asmFunction st fs h)
    · simp only [hc, Bool.false_eq_true, if_false]; exact h

theorem errNE_asmFinish (st : AsmSt) (fs : List String) (h : errNE st.err) :
    errNE (asmFinish st fs).err := by
  unfold asmFinish
  by_cases hs : st.err.isNone
  · simp only [hs, if_true]
    cases fs with
    | cons f rest =>
      exact errNE_some_append "unexpected section: " f (by decide)
    | nil =>
      cases st.prog with
      | some p =>
        by_cases ht : p.toplevel.isNone
        · simp only [ht, if_true]; intro e he; cases he; decide
        · simp only [ht, Bool.false_eq_true, if_false]; exact h
      | none => exact h
  · simp only [hs, Bool.false_eq_true, if_false]; exact h

/-- C4 amended — whenever `Asm` fails, the error message is non-empty
(every failure site constructs a description with a fixed non-empty
prefix); nothing stronger holds: the counterexample shows the message
need not name the offending section and the accompanying Program may be
non-nil and partially populated. -/
theorem c4_amended (input : String) (e : String) (h : (Asm input).2 = some e) :
    e ≠ "" := by
  unfold Asm at h
  exact errNE_asmFinish _ _
    (errNE_asmFuncLoop _ _ _
      (errNE_asmConstants _ _
        (errNE_asmGlobals _ _
          (errNE_asmNames _ _
            (errNE_asmLoads _ _
              (errNE_asmNext _
                (errNE_asmProgram _ _
                  (errNE_asmNext _ errNE_none)))))))) e h

/-- Witness for C4's amended claim at the counterexample input. -/
theorem c4_amended_witness : ("invalid integer: abc" : String) ≠ "" :=
  c4_amended c4Input "invalid integer: abc" rfl

theorem pushInv_nil : pushInv [] [] := by
  refine ⟨List.nodup_nil, ?_, ?_⟩
  · intro id h; cases h
  · intro i it h; cases i <;> cases h

/-- A live id is in bounds. -/
theorem pushInv_mem_lt (its : List IterSt) (L : List Nat) (h : pushInv its L)
    (id : Nat) (hm : id ∈ L) : id < its.length := by
  obtain ⟨it, hget, -, -⟩ := h.2.1 id hm
  by_contra hlt
  rw [List.get?_eq_none.mpr (Nat.le_of_not_lt hlt)] at hget
  cases hget

/-- Pushing a fresh push-kind iterator extends the live list. -/
theorem pushInv_append_push (its : List IterSt) (L : List Nat)
    (h : pushInv its L) (rem : List Value) (srcv : Option Nat) :
    pushInv (its ++ [⟨rem, srcv, 0, IterKind.push⟩]) (L ++ [its.length]) := by
  obtain ⟨hnd, hlive, hdone⟩ := h
  refine ⟨?_, ?_, ?_⟩
  · rw [List.nodup_append]
    refine ⟨hnd, List.nodup_singleton _, ?_⟩
    intro a ha hb
    rw [List.mem_singleton] at hb
    subst hb
    exact Nat.lt_irrefl _ (pushInv_mem_lt its L ⟨hnd, hlive, hdone⟩ _ ha)
  · intro id hm
    rw [List.mem_append, List.mem_singleton] at hm
    cases hm with
    | inl hm =>
      obtain ⟨it, hget, hk, hd⟩ := hlive id hm
      refine ⟨it, ?_, hk, hd⟩
      rw [List.get?_append (pushInv_mem_lt its L ⟨hnd, hlive, hdone⟩ _ hm)]
      exact hget
    | inr hm =>
      subst hm
      exact ⟨_, List.get?_concat_length _ _, rfl, rfl⟩
  · intro i it hget hk hm
    rw [List.mem_append, List.mem_singleton] at hm
    push_neg at hm
    rcases Nat.lt_trichotomy i its.length with hi | hi | hi
    · rw [List.get?_append hi] at hget
      exact hdone i it hget hk hm.1
    · exact absurd hi hm.2
    · rw [List.get?_eq_none.mpr (by simpa using hi)] at hget
      cases hget

/-- Appending an already-settled non-push iterator (a varargs iterator
with its `Done()` already delivered, or an unpack iterator, which the
invariant does not track) leaves the live list unchanged. -/
theorem pushInv_append_settled (its : List IterSt) (L : List Nat)
    (h : pushInv its L) (it' : IterSt) (hk : it'.kind ≠ IterKind.push)
    (hv : it'.kind = IterKind.varargs → it'.doneCount = 1) :
    pushInv (its ++ [it']) L := by
  obtain ⟨hnd, hlive, hdone⟩ := h
  refine ⟨hnd, ?_, ?_⟩
  · intro id hm
    obtain ⟨it, hget, hki, hd⟩ := hlive id hm
    refine ⟨it, ?_, hki, hd⟩
    rw [List.get?_append (pushInv_mem_lt its L ⟨hnd, hlive, hdone⟩ _ hm)]
    exact hget
  · intro i it hget hki hm
    rcases Nat.lt_trichotomy i its.length with hi | hi | hi
    · rw [List.get?_append hi] at hget
      exact hdone i it hget hki hm
    · subst hi
      rw [List.get?_concat_length] at hget
      cases hget
      cases hki with
      | inl hp => exact absurd hp hk
      | inr hp => exact hv hp
    · rw [List.get?_eq_none.mpr (by simpa using hi)] at hget
      cases hget

/-- Rewriting an entry without touching its kind or done count preserves
the invariant. -/
theorem pushInv_set_preserve (its : List IterSt) (L : List Nat) (id : Nat)
    (it it2 : IterSt) (hget : its.get? id = some it)
    (hk : it2.kind = it.kind) (hd : it2.doneCount = it.doneCount)
    (h : pushInv its L) : pushInv (its.set id it2) L := by
  obtain ⟨hnd, hlive, hdone⟩ := h
  have hlen : id < its.length := by
    by_contra hlt
    rw [List.get?_eq_none.mpr (Nat.le_of_not_lt hlt)] at hget
    cases hget
  refine ⟨hnd, ?_, ?_⟩
  · intro j hm
    obtain ⟨itj, hgj, hkj, hdj⟩ := hlive j hm
    by_cases hji : j = id
    · subst hji
      rw [hgj] at hget
      cases hget
      refine ⟨it2, ?_, by rw [hk]; exact hkj, by rw [hd]; exact hdj⟩
      rw [List.get?_set_eq, hgj]
      rfl
    · exact ⟨itj, by rw [List.get?_set_ne _ _ (Ne.symm hji)]; exact hgj, hkj, hdj⟩
  · intro i iti hgi hki hm
    by_cases hii : i = id
    · subst hii
      rw [List.get?_set_eq, hget] at hgi
      have hgi2 : it2 = iti := by simpa using hgi
      subst hgi2
      rw [hd]
      refine hdone i it hget ?_ hm
      rw [← hk]; exact hki
    · rw [List.get?_set_ne _ _ (Ne.symm hii)] at hgi
      exact hdone i iti hgi hki hm

/-- `Done()` on the first live id of the frame under scrutiny: the entry
(a push-kind iterator with no `Done()` yet) moves to done count 1 and
leaves the live list. -/
theorem pushInv_done_cons (its : List IterSt) (E rest : List Nat) (id : Nat)
    (h : pushInv its (E ++ id :: rest)) :
    ∃ it, its.get? id = some it ∧ it.kind = IterKind.push ∧ it.doneCount = 0 ∧
      pushInv (its.set id { it with doneCount := it.doneCount + 1 }) (E ++ rest) := by
  obtain ⟨hnd, hlive, hdone⟩ := h
  obtain ⟨it, hget, hk, hd⟩ := hlive id (by simp)
  have hnotE : id ∉ E := by
    rw [List.nodup_append] at hnd
    intro hm
    exact hnd.2.2 hm (by simp)
  have hnotRest : id ∉ rest := by
    rw [List.nodup_append, List.nodup_cons] at hnd
    exact hnd.2.1.1
  refine ⟨it, hget, hk, hd, ?_, ?_, ?_⟩
  · rw [List.nodup_append] at hnd ⊢
    rw [List.nodup_cons] at hnd
    exact ⟨hnd.1, hnd.2.1.2, fun a ha hb => hnd.2.2 ha (by simp [hb])⟩
  · intro j hm
    have hji : j ≠ id := by
      rintro rfl
      rw [List.mem_append] at hm
      cases hm with
      | inl hm => exact hnotE hm
      | inr hm => exact hnotRest hm
    obtain ⟨itj, hgj, hkj, hdj⟩ := hlive j (by
      rw [List.mem_append] at hm ⊢
      cases hm with
      | inl hm => exact Or.inl hm
      | inr hm => exact Or.inr (by simp [hm]))
    exact ⟨itj, by rw [List.get?_set_ne _ _ (Ne.symm hji)]; exact hgj, hkj, hdj⟩
  · intro i iti hgi hki hm
    by_cases hii : i = id
    · subst hii
      rw [List.get?_set_eq, hget] at hgi
      have : ({ it with doneCount := it.doneCount + 1 } : IterSt) = iti := by
        simpa using hgi
      subst this
      simp [hd]
    · rw [List.get?_set_ne _ _ (Ne.symm hii)] at hgi
      refine hdone i iti hgi hki ?_
      rw [List.mem_append] at hm ⊢
      push_neg at hm ⊢
      exact ⟨hm.1, by simp [hii, hm.2]⟩

/-- `iterDone` leaves the iterator heap untouched at a dangling id. -/
theorem iterDone_iters_none (g : GSt) (id : Nat)
    (h : g.iters.get? id = none) : (iterDone g id).iters = g.iters := by
  unfold iterDone
  rw [h]

/-- `iterDone` bumps the done count of the addressed entry (the list
itercount bookkeeping does not touch the iterator heap). -/
theorem iterDone_iters_some (g : GSt) (id : Nat) (it : IterSt)
    (h : g.iters.get? id = some it) :
    (iterDone g id).iters = g.iters.set id { it with doneCount := it.doneCount + 1 } := by
  unfold iterDone
  rw [h]
  dsimp only
  cases it.src with
  | none => rfl
  | some lid =>
    dsimp only
    cases g.lists.get? lid with
    | none => rfl
    | some lo =>
      dsimp only
      split <;> rfl

/-- The deferred cleanup: `Done()` on each remaining frame iterator in
turn discharges the frame's whole stack from the live list. -/
theorem pushInv_foldl_done : ∀ (L : List Nat) (g : GSt) (E : List Nat),
    pushInv g.iters (E ++ L) →
    pushInv (L.foldl (fun g id => iterDone g id) g).iters E := by
  intro L
  induction L with
  | nil => intro g E h; rw [List.append_nil] at h; exact h
  | cons id rest ih =>
    intro g E h
    obtain ⟨it, hget, -, -, hinv⟩ := pushInv_done_cons g.iters E rest id h
    rw [List.foldl_cons]
    refine ih (iterDone g id) E ?_
    rw [iterDone_iters_some g id it hget]
    exact hinv

/-- `iterate` allocates a fresh iterator of the requested kind at the end
of the heap, with no `Done()` yet. -/
theorem iterate_spec (g : GSt) (k : IterKind) (x : Value) (g2 : GSt) (id : Nat)
    (h : iterate g k x = some (g2, id)) :
    id = g.iters.length ∧
      ∃ rem srcv, g2.iters = g.iters ++ [⟨rem, srcv, 0, k⟩] := by
  unfold iterate at h
  cases x with
  | tuple vs =>
    simp only [Option.some.injEq, Prod.mk.injEq] at h
    refine ⟨h.2.symm, vs, none, ?_⟩
    rw [← h.1]
  | listRef lid =>
    dsimp only at h
    cases hg : g.lists.get? lid with
    | none => rw [hg] at h; cases h
    | some lo =>
      rw [hg] at h
      dsimp only at h
      by_cases hf : lo.frozen
      · simp only [hf, if_true, Option.some.injEq, Prod.mk.injEq] at h
        refine ⟨h.2.symm, lo.elems, some lid, ?_⟩
        rw [← h.1]
      · simp only [hf, Bool.false_eq_true, if_false, Option.some.injEq,
          Prod.mk.injEq] at h
        refine ⟨h.2.symm, lo.elems, some lid, ?_⟩
        rw [← h.1]
  | none => cases h
  | bool b => cases h
  | int n => cases h
  | str st => cases h
  | mandatory => cases h
  | cellRef cid => cases h
  | func fi dfs fvs => cases h
  | float f => cases h
  | bytes b => cases h

/-- `iter.Next` never changes an iterator's kind or done count. -/
theorem iterNext_pushInv (g : GSt) (id : Nat) (L : List Nat)
    (h : pushInv g.iters L) : pushInv (iterNext g id).1.iters L := by
  unfold iterNext
  cases hg : g.iters.get? id with
  | none => exact h
  | some it =>
    dsimp only
    cases it.remaining with
    | nil => exact h
    | cons v rest =>
      exact pushInv_set_preserve g.iters L id it { it with remaining := rest }
        hg rfl rfl h

/-- Step accounting does not touch the iterator heap. -/
theorem stepThread_iters (g : GSt) : (stepThread g).iters = g.iters := by
  unfold stepThread cancelThread
  dsimp only
  split
  · split
    · rfl
    · split <;> rfl
  · rfl

/-- Cell spilling does not touch the iterator heap. -/
theorem spillCells_iters : ∀ (cs : List Nat) (g : GSt) (locals : List (Option Value))
    (g2 : GSt) (locals2 : List (Option Value)),
    spillCells g locals cs = some (g2, locals2) → g2.iters = g.iters := by
  intro cs
  induction cs with
  | nil =>
    intro g locals g2 locals2 h
    simp only [spillCells, Option.some.injEq, Prod.mk.injEq] at h
    rw [← h.1]
  | cons i rest ih =>
    intro g locals g2 locals2 h
    unfold spillCells at h
    by_cases hi : i < locals.length
    · simp only [hi, dif_pos] at h
      rw [ih _ _ _ _ h]
    · simp only [hi, dif_neg, not_false_eq_true] at h
      cases h

/-- A caught error stays in the same frame with the same heap. -/
theorem errXfer_inl (s : LSt) (e : String) (s2 : LSt)
    (h : errXfer s e = Sum.inl s2) : s2.g = s.g ∧ s2.iterIds = s.iterIds := by
  unfold errXfer at h
  cases hc : findCatch s.f.catches s.frPc with
  | some c =>
    rw [hc] at h
    dsimp only at h
    cases h
    exact ⟨rfl, rfl⟩
  | none => rw [hc] at h; cases h

/-- An uncaught error returns the frame's heap and iterator stack. -/
theorem errXfer_inr (s : LSt) (e : String) (r : GSt × List Nat × Outcome)
    (h : errXfer s e = Sum.inr r) : r.1 = s.g ∧ r.2.1 = s.iterIds := by
  unfold errXfer at h
  cases hc : findCatch s.f.catches s.frPc with
  | some c => rw [hc] at h; cases h
  | none =>
    rw [hc] at h
    dsimp only at h
    cases h
    exact ⟨rfl, rfl⟩

/-- The recurring error-transfer pattern of the dispatch loop preserves
the invariant: either the loop resumes in the same frame (same heap,
same iterator stack) or the frame returns them unchanged. -/
theorem errXfer_ok (recLoop : LoopFn) (hl : LoopOK recLoop) (E : List Nat)
    (s' : LSt) (e : String) (hinv : pushInv s'.g.iters (E ++ s'.iterIds)) :
    pushInv (match errXfer s' e with
      | .inl s2 => recLoop s2
      | .inr r => r).1.iters
      (E ++ (match errXfer s' e with
        | .inl s2 => recLoop s2
        | .inr r => r).2.1) := by
  cases hx : errXfer s' e with
  | inl s2 =>
    have h2 := errXfer_inl s' e s2 hx
    exact hl E s2 (by rw [h2.1, h2.2]; exact hinv)
  | inr r =>
    have h2 := errXfer_inr s' e r hx
    rw [h2.1, h2.2]
    exact hinv

/-- Setting the freshly appended last entry overwrites it in place. -/
theorem set_concat_length (l : List IterSt) (a b : IterSt) :
    (l ++ [a]).set l.length b = l ++ [b] := by
  induction l with
  | nil => rfl
  | cons x xs ih => simp [ih]

/-- Reading the freshly appended last entry through `getD`. -/
theorem getD_concat_length (l : List IterSt) (a d : IterSt) :
    (l ++ [a]).getD l.length d = a := by
  simp [List.getD, List.get?_eq_getElem?]

/-- A nonempty list is its `dropLast` plus its last element. -/
theorem eq_dropLast_concat_of_getLast? : ∀ (l : List Nat) (id : Nat),
    l.getLast? = some id → l = l.dropLast ++ [id] := by
  intro l
  induction l with
  | nil => intro id h; cases h
  | cons a rest ih =>
    intro id h
    cases rest with
    | nil =>
      simp only [List.getLast?_singleton, Option.some.injEq] at h
      rw [h]
      rfl
    | cons b bs =>
      rw [List.getLast?_cons_cons] at h
      have := ih id h
      rw [List.dropLast_cons₂, List.cons_append, ← this]

/-- `CallInternal` preserves the live-iterator invariant for any ambient
live list: its own frame starts with an empty iterator stack, and the
deferred cleanup discharges whatever the dispatch loop leaves on it, on
every exit path. -/
theorem callFnBody_ok (pr : IProg) (recLoop : LoopFn) (hl : LoopOK recLoop) :
    CallOK (callFnBody pr recLoop) := by
  intro g stackFids fid fv args kwargs E hinv
  unfold callFnBody
  cases hf : pr.funcs.get? fid with
  | none => exact hinv
  | some f =>
    dsimp only
    split
    · exact hinv
    · split
      · exact hinv
      · cases hsa : setArgs f args kwargs with
        | error e => exact hinv
        | ok locals0 =>
          dsimp only
          cases hsp : spillCells g locals0 f.cells with
          | none => exact hinv
          | some p =>
            obtain ⟨g2, locals⟩ := p
            dsimp only
            refine pushInv_foldl_done _ _ E (hl E _ ?_)
            show pushInv g2.iters (E ++ [])
            rw [spillCells_iters _ _ _ _ _ hsp, List.append_nil]
            exact hinv

/-- The settle-and-release pattern shared by UNPACK's drained path and
the CALL family's `*args` expansion: rewrite the freshly allocated
iterator's remaining elements, then `Done()` it at once. -/
theorem set_remaining_done_iters (g2 : GSt) (id : Nat) (old : List IterSt)
    (rem newRem : List Value) (srcv : Option Nat) (k : IterKind) (d : IterSt)
    (hits : g2.iters = old ++ [⟨rem, srcv, 0, k⟩]) (hid : id = old.length) :
    (iterDone { g2 with
      iters := g2.iters.set id { g2.iters.getD id d with remaining := newRem } }
      id).iters = old ++ [⟨newRem, srcv, 1, k⟩] := by
  subst hid
  have h1 : ({ g2 with
      iters := g2.iters.set old.length
        { g2.iters.getD old.length d with remaining := newRem } } : GSt).iters =
      old ++ [⟨newRem, srcv, 0, k⟩] := by
    dsimp only
    rw [hits, getD_concat_length, set_concat_length]
  have h2 : ({ g2 with
      iters := g2.iters.set old.length
        { g2.iters.getD old.length d with remaining := newRem } } : GSt).iters.get?
      old.length = some ⟨newRem, srcv, 0, k⟩ := by
    rw [h1]
    exact List.get?_concat_length _ _
  rw [iterDone_iters_some _ _ _ h2, h1, set_concat_length]

/-- Unpacking the call contract at a known call result. -/
theorem CallOK_result (recCall : CallT) (hc : CallOK recCall) (g : GSt)
    (sf : List Nat) (fid : Nat) (fv pos : List Value)
    (kw : List (Value × Value)) (E : List Nat) (hinv : pushInv g.iters E)
    (g2 : GSt) (o : Outcome) (heq : recCall g sf fid fv pos kw = (g2, o)) :
    pushInv g2.iters E := by
  have h0 := hc g sf fid fv pos kw E hinv
  rw [heq] at h0
  exact h0

theorem runLoopBody_ok (pr : IProg) (recLoop : LoopFn) (recCall : CallT)
    (hl : LoopOK recLoop) (hc : CallOK recCall) :
    LoopOK (runLoopBody pr recLoop recCall) := by
  intro E s hinv
  have hinv0 : pushInv (stepThread s.g).iters (E ++ s.iterIds) := by
    rw [stepThread_iters]; exact hinv
  generalize hres : runLoopBody pr recLoop recCall s = r
  unfold runLoopBody at hres
  dsimp only at hres
  split at hres
  · rw [← hres]; exact errXfer_ok recLoop hl E _ _ hinv0
  · split at hres
    · rw [← hres]; exact hinv0
    · split at hres
      · rw [← hres]; exact hinv0
      · -- the opcode chain
        rename_i op heqOp xdec arg pc2 heqDec
        by_cases hcase0 : op = opNOP
        · rw [if_pos hcase0] at hres
          rw [← hres]; exact hl E _ hinv0
        rw [if_neg hcase0] at hres
        by_cases hcase1 : op = opDUP
        · rw [if_pos hcase1] at hres
          split at hres
          · rw [← hres]; exact hl E _ hinv0
          · rw [← hres]; exact hinv0
        rw [if_neg hcase1] at hres
        by_cases hcase2 : op = opDUP2
        · rw [if_pos hcase2] at hres
          split at hres
          · rw [← hres]; exact hl E _ hinv0
          · rw [← hres]; exact hinv0
        rw [if_neg hcase2] at hres
        by_cases hcase3 : op = opPOP
        · rw [if_pos hcase3] at hres
          split at hres
          · rw [← hres]; exact hl E _ hinv0
          · rw [← hres]; exact hinv0
        rw [if_neg hcase3] at hres
        by_cases hcase4 : op = opEXCH
        · rw [if_pos hcase4] at hres
          split at hres
          · rw [← hres]; exact hl E _ hinv0
          · rw [← hres]; exact hinv0
        rw [if_neg hcase4] at hres
        by_cases hcase5 : op = opPLUS
        · rw [if_pos hcase5] at hres
          split at hres
          · split at hres
            · rw [← hres]; exact hl E _ hinv0
            · rw [← hres]; exact errXfer_ok recLoop hl E _ _ hinv0
          · rw [← hres]; exact hinv0
        rw [if_neg hcase5] at hres
        by_cases hcase6 : op = opINPLACE_ADD
        · rw [if_pos hcase6] at hres
          split at hres
          · split at hres
            · split at hres
              · rw [← hres]; exact hinv0
              · split at hres
                · split at hres
                  · rw [← hres]; exact errXfer_ok recLoop hl E _ _ hinv0
                  · rw [← hres]; exact hl E _ hinv0
                · split at hres
                  · rw [← hres]; exact hl E _ hinv0
                  · rw [← hres]; exact errXfer_ok recLoop hl E _ _ hinv0
            · split at hres
              · rw [← hres]; exact hl E _ hinv0
              · rw [← hres]; exact errXfer_ok recLoop hl E _ _ hinv0
          · rw [← hres]; exact hinv0
        rw [if_neg hcase6] at hres
        by_cases hcase7 : op = opNONE
        · rw [if_pos hcase7] at hres
          rw [← hres]; exact hl E _ hinv0
        rw [if_neg hcase7] at hres
        by_cases hcase8 : op = opTRUE
        · rw [if_pos hcase8] at hres
          rw [← hres]; exact hl E _ hinv0
        rw [if_neg hcase8] at hres
        by_cases hcase9 : op = opFALSE
        · rw [if_pos hcase9] at hres
          rw [← hres]; exact hl E _ hinv0
        rw [if_neg hcase9] at hres
        by_cases hcase10 : op = opMANDATORY
        · rw [if_pos hcase10] at hres
          rw [← hres]; exact hl E _ hinv0
        rw [if_neg hcase10] at hres
        by_cases hcase11 : op = opNOT
        · rw [if_pos hcase11] at hres
          split at hres
          · rw [← hres]; exact hl E _ hinv0
          · rw [← hres]; exact hinv0
        rw [if_neg hcase11] at hres
        by_cases hcase12 : op = opJMP
        · rw [if_pos hcase12] at hres
          rw [← hres]; exact hl E _ hinv0
        rw [if_neg hcase12] at hres
        by_cases hcase13 : op = opCJMP
        · rw [if_pos hcase13] at hres
          split at hres
          · split at hres
            · rw [← hres]; exact hl E _ hinv0
            · rw [← hres]; exact hl E _ hinv0
          · rw [← hres]; exact hinv0
        rw [if_neg hcase13] at hres
        by_cases hcase14 : op = opRETURN
        · rw [if_pos hcase14] at hres
          split at hres
          · rw [← hres]; exact hinv0
          · rw [← hres]; exact hinv0
        rw [if_neg hcase14] at hres
        by_cases hcase15 : op = opRUNDEFER
        · rw [if_pos hcase15] at hres
          rw [← hres]; exact hl E _ hinv0
        rw [if_neg hcase15] at hres
        by_cases hcase16 : op = opDEFEREXIT
        · rw [if_pos hcase16] at hres
          rw [← hres]; exact hl E _ hinv0
        rw [if_neg hcase16] at hres
        by_cases hcase17 : op = opCATCHJMP
        · rw [if_pos hcase17] at hres
          rw [← hres]; exact hl E _ hinv0
        rw [if_neg hcase17] at hres
        by_cases hcase18 : op = opCONSTANT
        · rw [if_pos hcase18] at hres
          split at hres
          · rw [← hres]; exact hl E _ hinv0
          · rw [← hres]; exact hinv0
        rw [if_neg hcase18] at hres
        by_cases hcase19 : op = opMAKETUPLE
        · rw [if_pos hcase19] at hres
          split at hres
          · rw [← hres]; exact hl E _ hinv0
          · rw [← hres]; exact hinv0
        rw [if_neg hcase19] at hres
        by_cases hcase20 : op = opMAKELIST
        · rw [if_pos hcase20] at hres
          split at hres
          · rw [← hres]; exact hl E _ hinv0
          · rw [← hres]; exact hinv0
        rw [if_neg hcase20] at hres
        by_cases hcase21 : op = opMAKEFUNC
        · rw [if_pos hcase21] at hres
          split at hres
          · rw [← hres]; exact hinv0
          · split at hres
            · split at hres
              · rw [← hres]; exact hl E _ hinv0
              · rw [← hres]; exact hinv0
            · rw [← hres]; exact hinv0
        rw [if_neg hcase21] at hres
        by_cases hcase22 : op = opAPPEND
        · rw [if_pos hcase22] at hres
          split at hres
          · split at hres
            · split at hres
              · rw [← hres]; exact hinv0
              · rw [← hres]; exact hl E _ hinv0
            · rw [← hres]; exact hinv0
          · rw [← hres]; exact hinv0
        rw [if_neg hcase22] at hres
        by_cases hcase23 : op = opLOCAL
        · rw [if_pos hcase23] at hres
          split at hres
          · rw [← hres]; exact hinv0
          · rw [← hres]; exact errXfer_ok recLoop hl E _ _ hinv0
          · rw [← hres]; exact hl E _ hinv0
        rw [if_neg hcase23] at hres
        by_cases hcase24 : op = opSETLOCAL
        · rw [if_pos hcase24] at hres
          split at hres
          · split at hres
            · rw [← hres]; exact hl E _ hinv0
            · rw [← hres]; exact hinv0
          · rw [← hres]; exact hinv0
        rw [if_neg hcase24] at hres
        by_cases hcase25 : op = opLOCALCELL
        · rw [if_pos hcase25] at hres
          split at hres
          · rw [← hres]; exact hinv0
          · rw [← hres]; exact hinv0
          · split at hres
            · split at hres
              · rw [← hres]; exact hinv0
              · rw [← hres]; exact errXfer_ok recLoop hl E _ _ hinv0
              · rw [← hres]; exact hl E _ hinv0
            · rw [← hres]; exact hinv0
        rw [if_neg hcase25] at hres
        by_cases hcase26 : op = opSETLOCALCELL
        · rw [if_pos hcase26] at hres
          split at hres
          · split at hres
            · rw [← hres]; exact hinv0
            · rw [← hres]; exact hinv0
            · split at hres
              · split at hres
                · rw [← hres]; exact hl E _ hinv0
                · rw [← hres]; exact hinv0
              · rw [← hres]; exact hinv0
          · rw [← hres]; exact hinv0
        rw [if_neg hcase26] at hres
        by_cases hcase27 : op = opFREE
        · rw [if_pos hcase27] at hres
          split at hres
          · rw [← hres]; exact hl E _ hinv0
          · rw [← hres]; exact hinv0
        rw [if_neg hcase27] at hres
        by_cases hcase28 : op = opFREECELL
        · rw [if_pos hcase28] at hres
          split at hres
          · rw [← hres]; exact hinv0
          · split at hres
            · split at hres
              · rw [← hres]; exact hinv0
              · rw [← hres]; exact errXfer_ok recLoop hl E _ _ hinv0
              · rw [← hres]; exact hl E _ hinv0
            · rw [← hres]; exact hinv0
        rw [if_neg hcase28] at hres
        by_cases hcase29 : op = opGLOBAL
        · rw [if_pos hcase29] at hres
          split at hres
          · rw [← hres]; exact hinv0
          · rw [← hres]; exact errXfer_ok recLoop hl E _ _ hinv0
          · rw [← hres]; exact hl E _ hinv0
        rw [if_neg hcase29] at hres
        by_cases hcase30 : op = opSETGLOBAL
        · rw [if_pos hcase30] at hres
          split at hres
          · split at hres
            · rw [← hres]; exact hl E _ hinv0
            · rw [← hres]; exact hinv0
          · rw [← hres]; exact hinv0
        rw [if_neg hcase30] at hres
        by_cases hcase31 : op = opITERPUSH
        · rw [if_pos hcase31] at hres
          split at hres
          · split at hres
            · rw [← hres]; exact errXfer_ok recLoop hl E _ _ hinv0
            · rename_i g2 id heq
              obtain ⟨hid, rem, srcv, hits⟩ := iterate_spec _ _ _ _ _ heq
              rw [← hres]
              refine hl E _ ?_
              show pushInv g2.iters (E ++ (s.iterIds ++ [id]))
              rw [hits, hid, ← List.append_assoc]
              exact pushInv_append_push _ _ hinv0 rem srcv
          · rw [← hres]; exact hinv0
        rw [if_neg hcase31] at hres
        by_cases hcase32 : op = opITERJMP
        · rw [if_pos hcase32] at hres
          split at hres
          · rw [← hres]; exact hinv0
          · rename_i id heqLast
            split at hres
            · rename_i g2 v heq
              rw [← hres]
              refine hl E _ ?_
              show pushInv g2.iters (E ++ s.iterIds)
              have h2 : (iterNext (stepThread s.g) id).1 = g2 := by rw [heq]
              rw [← h2]
              exact iterNext_pushInv _ _ _ hinv0
            · rename_i g2 heq
              rw [← hres]
              refine hl E _ ?_
              show pushInv g2.iters (E ++ s.iterIds)
              have h2 : (iterNext (stepThread s.g) id).1 = g2 := by rw [heq]
              rw [← h2]
              exact iterNext_pushInv _ _ _ hinv0
        rw [if_neg hcase32] at hres
        by_cases hcase33 : op = opITERPOP
        · rw [if_pos hcase33] at hres
          split at hres
          · rw [← hres]; exact hinv0
          · rename_i id heqLast
            rw [← hres]
            refine hl E _ ?_
            show pushInv (iterDone (stepThread s.g) id).iters (E ++ s.iterIds.dropLast)
            have hsplit := eq_dropLast_concat_of_getLast? s.iterIds id heqLast
            have hinv1 : pushInv (stepThread s.g).iters
                ((E ++ s.iterIds.dropLast) ++ [id]) := by
              rw [List.append_assoc, ← hsplit]
              exact hinv0
            obtain ⟨it, hget, -, -, hinv2⟩ :=
              pushInv_done_cons _ (E ++ s.iterIds.dropLast) [] id hinv1
            rw [iterDone_iters_some _ _ _ hget]
            rw [List.append_nil] at hinv2
            exact hinv2
        rw [if_neg hcase33] at hres
        by_cases hcase34 : op = opUNPACK
        · rw [if_pos hcase34] at hres
          split at hres
          · split at hres
            · rw [← hres]; exact errXfer_ok recLoop hl E _ _ hinv0
            · rename_i g2 id heq
              obtain ⟨hid, rem, srcv, hits⟩ := iterate_spec _ _ _ _ _ heq
              split at hres
              · rw [← hres]
                refine errXfer_ok recLoop hl E _ _ ?_
                dsimp only
                rw [hits, hid, getD_concat_length, set_concat_length]
                exact pushInv_append_settled _ _ hinv0 _ (fun hk => nomatch hk)
                  (fun hv => nomatch hv)
              · split at hres
                · rw [← hres]
                  refine errXfer_ok recLoop hl E _ _ ?_
                  dsimp only
                  rw [set_remaining_done_iters _ _ _ _ _ _ _ _ hits hid]
                  exact pushInv_append_settled _ _ hinv0 _ (fun hk => nomatch hk)
                    (fun hv => nomatch hv)
                · rw [← hres]
                  refine hl E _ ?_
                  dsimp only
                  rw [set_remaining_done_iters _ _ _ _ _ _ _ _ hits hid]
                  exact pushInv_append_settled _ _ hinv0 _ (fun hk => nomatch hk)
                    (fun hv => nomatch hv)
          · rw [← hres]; exact hinv0
        rw [if_neg hcase34] at hres
        by_cases hcase35 : op = opCALL ∨ op = opCALL_VAR
        · rw [if_pos hcase35] at hres
          split at hres
          · rw [← hres]; exact hinv0
          · rename_i argsVal stack1 heqPop
            split at hres
            · rw [← hres]; exact hinv0
            · cases argsVal with
              | none =>
                dsimp only at hres
                split at hres
                · rw [← hres]; exact hinv0
                · rename_i callee tail heq3
                  cases callee with
                  | func cfid cdef cfv =>
                    dsimp only at hres
                    split at hres
                    · rename_i g2 z heq
                      rw [← hres]
                      exact hl E _ (CallOK_result _ hc _ _ _ _ _ _ _ hinv0 _ _ heq)
                    · rename_i g2 e2 heq
                      rw [← hres]
                      exact errXfer_ok recLoop hl E _ _
                        (CallOK_result _ hc _ _ _ _ _ _ _ hinv0 _ _ heq)
                    · rename_i g2 m heq
                      rw [← hres]
                      exact CallOK_result _ hc _ _ _ _ _ _ _ hinv0 _ _ heq
                    · rename_i g2 heq
                      rw [← hres]
                      exact CallOK_result _ hc _ _ _ _ _ _ _ hinv0 _ _ heq
                    · rename_i g2 heq
                      rw [← hres]
                      exact CallOK_result _ hc _ _ _ _ _ _ _ hinv0 _ _ heq
                  | none =>
                    (dsimp only at hres; rw [← hres]; exact errXfer_ok recLoop hl E _ _ hinv0)
                  | bool b =>
                    (dsimp only at hres; rw [← hres]; exact errXfer_ok recLoop hl E _ _ hinv0)
                  | int n =>
                    (dsimp only at hres; rw [← hres]; exact errXfer_ok recLoop hl E _ _ hinv0)
                  | float fl =>
                    (dsimp only at hres; rw [← hres]; exact errXfer_ok recLoop hl E _ _ hinv0)
                  | str st =>
                    (dsimp only at hres; rw [← hres]; exact errXfer_ok recLoop hl E _ _ hinv0)
                  | bytes bs =>
                    (dsimp only at hres; rw [← hres]; exact errXfer_ok recLoop hl E _ _ hinv0)
                  | tuple vs =>
                    (dsimp only at hres; rw [← hres]; exact errXfer_ok recLoop hl E _ _ hinv0)
                  | listRef lid =>
                    (dsimp only at hres; rw [← hres]; exact errXfer_ok recLoop hl E _ _ hinv0)
                  | cellRef cid =>
                    (dsimp only at hres; rw [← hres]; exact errXfer_ok recLoop hl E _ _ hinv0)
                  | mandatory =>
                    (dsimp only at hres; rw [← hres]; exact errXfer_ok recLoop hl E _ _ hinv0)
              | some av =>
                dsimp only at hres
                cases hIt : iterate (stepThread s.g) IterKind.varargs av with
                | none =>
                  rw [hIt] at hres
                  dsimp only at hres
                  rw [← hres]
                  exact errXfer_ok recLoop hl E _ _ hinv0
                | some p =>
                  obtain ⟨gv, idIter⟩ := p
                  rw [hIt] at hres
                  dsimp only at hres
                  obtain ⟨hid, rem, srcv, hits⟩ := iterate_spec _ _ _ _ _ hIt
                  have hsettled : pushInv (iterDone { gv with
                      iters := gv.iters.set idIter { gv.iters.getD idIter
                        { remaining := [], src := none, doneCount := 0,
                          kind := IterKind.varargs } with
                        remaining := ([] : List Value) } } idIter).iters
                      (E ++ s.iterIds) := by
                    rw [set_remaining_done_iters _ _ _ _ _ _ _ _ hits hid]
                    exact pushInv_append_settled _ _ hinv0 _ (fun hk => nomatch hk)
                      (fun hv => rfl)
                  split at hres
                  · rw [← hres]; exact hsettled
                  · rename_i callee tail heq3
                    cases callee with
                    | func cfid cdef cfv =>
                      dsimp only at hres
                      split at hres
                      · rename_i g2 z heq
                        rw [← hres]
                        exact hl E _ (CallOK_result _ hc _ _ _ _ _ _ _ hsettled _ _ heq)
                      · rename_i g2 e2 heq
                        rw [← hres]
                        exact errXfer_ok recLoop hl E _ _
                          (CallOK_result _ hc _ _ _ _ _ _ _ hsettled _ _ heq)
                      · rename_i g2 m heq
                        rw [← hres]
                        exact CallOK_result _ hc _ _ _ _ _ _ _ hsettled _ _ heq
                      · rename_i g2 heq
                        rw [← hres]
                        exact CallOK_result _ hc _ _ _ _ _ _ _ hsettled _ _ heq
                      · rename_i g2 heq
                        rw [← hres]
                        exact CallOK_result _ hc _ _ _ _ _ _ _ hsettled _ _ heq
                    | none =>
                      (dsimp only at hres; rw [← hres]; exact errXfer_ok recLoop hl E _ _ hsettled)
                    | bool b =>
                      (dsimp only at hres; rw [← hres]; exact errXfer_ok recLoop hl E _ _ hsettled)
                    | int n =>
                      (dsimp only at hres; rw [← hres]; exact errXfer_ok recLoop hl E _ _ hsettled)
                    | float fl =>
                      (dsimp only at hres; rw [← hres]; exact errXfer_ok recLoop hl E _ _ hsettled)
                    | str st =>
                      (dsimp only at hres; rw [← hres]; exact errXfer_ok recLoop hl E _ _ hsettled)
                    | bytes bs =>
                      (dsimp only at hres; rw [← hres]; exact errXfer_ok recLoop hl E _ _ hsettled)
                    | tuple vs =>
                      (dsimp only at hres; rw [← hres]; exact errXfer_ok recLoop hl E _ _ hsettled)
                    | listRef lid =>
                      (dsimp only at hres; rw [← hres]; exact errXfer_ok recLoop hl E _ _ hsettled)
                    | cellRef cid =>
                      (dsimp only at hres; rw [← hres]; exact errXfer_ok recLoop hl E _ _ hsettled)
                    | mandatory =>
                      (dsimp only at hres; rw [← hres]; exact errXfer_ok recLoop hl E _ _ hsettled)
        rw [if_neg hcase35] at hres
        by_cases hcase36 : (45 ≤ op ∧ op < OpcodeArgMin) ∨ op > opCATCHJMP
        · rw [if_pos hcase36] at hres
          rw [← hres]; exact errXfer_ok recLoop hl E _ _ hinv0
        rw [if_neg hcase36] at hres
        rw [← hres]; exact hinv0

/-- Both contracts hold at every fuel level: at fuel 0 both functions
return their inputs unchanged, and each unfolding preserves them. -/
theorem exec_ok (pr : IProg) : ∀ n : Nat, LoopOK (runLoop pr n) ∧ CallOK (callFn pr n) := by
  intro n
  induction n with
  | zero =>
    constructor
    · intro E s h
      exact h
    · intro g sf fid fv a kw E h
      exact h
  | succ n ih =>
    constructor
    · exact runLoopBody_ok pr _ _ ih.1 ih.2
    · exact callFnBody_ok pr _ ih.1

/-- C8 (amended) — the exactly-once discipline holds for the tracked
iterator kinds: starting from a heap with no live iterators, every
iterator that `CallInternal` acquires via ITERPUSH (push kind) or via
the CALL family's `*args` expansion (varargs kind) ends with `Done()`
called exactly once, on every exit path — return, caught or uncaught
error, panic unwinding, and fuel exhaustion — at any call depth.
Unpack-kind iterators are exempt: the UNPACK too-many-values error path
leaks them (the counterexample), which is the flaw in the original
claim. -/
theorem c8_amended (pr : IProg) (fuel : Nat) (g : GSt) (stackFids : List Nat)
    (fid : Nat) (fv args : List Value) (kwargs : List (Value × Value))
    (h : g.iters = []) (i : Nat) (it : IterSt)
    (hget : (callFn pr fuel g stackFids fid fv args kwargs).1.iters.get? i = some it)
    (hk : it.kind = IterKind.push ∨ it.kind = IterKind.varargs) :
    it.doneCount = 1 := by
  have h0 : pushInv g.iters [] := by rw [h]; exact pushInv_nil
  have h1 := (exec_ok pr fuel).2 g stackFids fid fv args kwargs [] h0
  exact h1.2.2 i it hget hk (List.not_mem_nil i)

/-- Witness for C8's amended claim: in the `c8bProg` run the dispatch
loop breaks with an in-flight error while an ITERPUSH iterator is live,
and the deferred cleanup still delivers its single `Done()`. -/
theorem c8_amended_witness :
    ∃ it : IterSt,
      (callFn c8bProg 50 gDefault [0] 0 [] [] []).1.iters.get? 0 = some it ∧
      it.doneCount = 1 :=
  ⟨⟨[Value.none], none, 1, IterKind.push⟩, rfl,
    c8_amended c8bProg 50 gDefault [0] 0 [] [] [] rfl 0 _ rfl (Or.inl rfl)⟩

end StarVM
